import Mathlib

set_option maxRecDepth 8192

/-!
Verification of the data-contract layer in `app/schemas.py`.

The module under study declares eight Pydantic (v1) models:
`SlotQuery`, `JobPreview`, `TourPreview`, `SlotsResponse`,
`RecommendationRequest`, `RecommendRequest`, `ScheduleItem`, `Itinerary`.
The operations of interest are validate-and-construct (Pydantic model
construction from a parsed JSON value) and serialize (Pydantic `.json()` /
`.dict()` rendering back to JSON).

We shallowly embed:
  * a JSON value type `Json` (numbers split into integer and non-integer
    literals, the latter carried exactly as rationals — the binary rounding
    of Python floats is not modelled, no claim here depends on it);
  * Pydantic v1 field validation semantics for the field types used by the
    schema module: `str`, `int`, `float`, `UUID`, `List[_]`, `dict`,
    `Optional[_]`, defaults and `default_factory`, including Pydantic v1's
    lenient coercions (`int("100000")`, `int(True)`, `str(123)`, …);
  * one validator and one serializer per model class, following the field
    declarations of `app/schemas.py` in declaration order.
-/

/-- A JSON value, as handed to Pydantic after `json.loads`: an integer
literal is a Python `int`, any other numeric literal a Python `float`
(modelled exactly as a rational). Objects are ordered key/value lists,
matching Python's insertion-ordered `dict`. -/
inductive Json where
  | null
  | bool (b : Bool)
  | int (n : Int)
  | float (q : ℚ)
  | str (s : String)
  | arr (xs : List Json)
  | obj (kvs : List (String × Json))
deriving Repr

mutual

def Json.beq : Json → Json → Bool
  | .null, .null => true
  | .bool a, .bool b => a == b
  | .int a, .int b => a == b
  | .float a, .float b => a == b
  | .str a, .str b => a == b
  | .arr xs, .arr ys => Json.beqList xs ys
  | .obj xs, .obj ys => Json.beqFields xs ys
  | _, _ => false

def Json.beqList : List Json → List Json → Bool
  | [], [] => true
  | x :: xs, y :: ys => Json.beq x y && Json.beqList xs ys
  | _, _ => false

def Json.beqFields : List (String × Json) → List (String × Json) → Bool
  | [], [] => true
  | (k, v) :: xs, (k2, v2) :: ys => k == k2 && Json.beq v v2 && Json.beqFields xs ys
  | _, _ => false

end

instance : BEq Json := ⟨Json.beq⟩

/-- Key lookup in a JSON object's binding list (first binding wins; the
validators only ever receive genuine Python dicts, whose keys are unique). -/
def lookupKey : List (String × Json) → String → Option Json
  | [], _ => none
  | (k, v) :: rest, name => if k == name then some v else lookupKey rest name

/-- The keys of a binding list are pairwise distinct (true of any binding
list that came from a Python dict). -/
def keysNodup : List (String × Json) → Bool
  | [] => true
  | (k, _) :: rest => !(rest.any (fun kv => kv.1 == k)) && keysNodup rest

/-! ## Python scalar semantics (the pieces of Python/Pydantic v1 the schema
module relies on) -/

/-- Decimal digit list to a natural number, most significant first. -/
def digitsToNat (ds : List Char) : Nat :=
  ds.foldl (fun acc c => acc * 10 + (c.toNat - 48)) 0

/-- The whitespace CPython's number parsing strips at either end, within
ASCII: `\t`, `\n`, `\v`, `\f`, `\r` and space (checked against CPython:
`int("\x0b42\x0c") = 42` while `int("\x1c42")` raises). Python also strips
non-ASCII Unicode whitespace, which is outside this model; the C3 theorem
restricts itself to ASCII inputs accordingly. -/
def pyIsSpace (c : Char) : Bool :=
  ('\x09' ≤ c && c ≤ '\x0d') || c == ' '

/-- Strip `pyIsSpace` whitespace from both ends. -/
def stripSpaces (cs : List Char) : List Char :=
  ((cs.dropWhile pyIsSpace).reverse.dropWhile pyIsSpace).reverse

/-- Tail of the PEP 515 digit-group grammar `digit ([_] digit)*` over a
digit class `isD`: underscores only single and only between digits. -/
def digitGroupsTail (isD : Char → Bool) : List Char → Bool
  | [] => true
  | '_' :: c :: rest => isD c && digitGroupsTail isD rest
  | c :: rest => isD c && digitGroupsTail isD rest

/-- The PEP 515 digit-group grammar `digit ([_] digit)*`: nonempty, starts
and ends with a digit, single underscores only between digits. -/
def digitGroups (isD : Char → Bool) : List Char → Bool
  | [] => false
  | c :: rest => isD c && digitGroupsTail isD rest

/-- Python `int(s)` (base 10) for a string `s`: surrounding whitespace is
stripped, one optional sign, then PEP 515 digit groups (`int("100_000") =
100000`, while `"_10"`, `"10_"` and `"1__0"` raise). Exact for ASCII
strings; Python additionally accepts non-ASCII decimal digits (Unicode
`Nd`) and strips non-ASCII whitespace, both outside this model — the C3
theorem restricts itself to ASCII inputs accordingly. -/
def pyIntOfString (s : String) : Option Int :=
  let cs := stripSpaces s.data
  let signAndRest : Int × List Char :=
    match cs with
    | '+' :: rest => (1, rest)
    | '-' :: rest => (-1, rest)
    | rest => (1, rest)
  if digitGroups Char.isDigit signAndRest.2 then
    some (signAndRest.1 * (digitsToNat (signAndRest.2.filter (fun c => c != '_')) : Int))
  else none

/-- Python `float(s)` for a string `s`, on the ordinary decimal forms
`[sign] digits [. digits] [(e|E) [sign] digits]` (at least one digit in the
mantissa). The value is exact, as a rational. (`inf`/`nan` spellings and
underscore separators are not modelled; no claim depends on them.) -/
def pyFloatOfString (s : String) : Option ℚ :=
  let cs := stripSpaces s.data
  let signAndRest : Int × List Char :=
    match cs with
    | '+' :: rest => (1, rest)
    | '-' :: rest => (-1, rest)
    | rest => (1, rest)
  let sgn := signAndRest.1
  let ip := signAndRest.2.takeWhile Char.isDigit
  let afterIp := signAndRest.2.dropWhile Char.isDigit
  let fracAndRest : List Char × List Char :=
    match afterIp with
    | '.' :: rest => (rest.takeWhile Char.isDigit, rest.dropWhile Char.isDigit)
    | rest => ([], rest)
  let fp := fracAndRest.1
  let afterFrac := fracAndRest.2
  let expVal : Option Int :=
    match afterFrac with
    | [] => some 0
    | e :: rest =>
      if e == 'e' || e == 'E' then
        match rest with
        | '+' :: ds => if ds ≠ [] ∧ ds.all Char.isDigit then some (digitsToNat ds) else none
        | '-' :: ds => if ds ≠ [] ∧ ds.all Char.isDigit then some (-(digitsToNat ds : Int)) else none
        | ds => if ds ≠ [] ∧ ds.all Char.isDigit then some (digitsToNat ds) else none
      else none
  match expVal with
  | none => none
  | some e =>
    if ip ++ fp = [] then none
    else
      let mant : ℚ := (digitsToNat ip : ℚ) + (digitsToNat fp : ℚ) / ((10 : ℚ) ^ fp.length)
      some ((sgn : ℚ) * mant * (10 : ℚ) ^ e)

/-- Python `int(f)` on a float: truncation toward zero. -/
def pyTruncToInt (q : ℚ) : Int := Int.tdiv q.num (q.den : Int)

/-- Python `str(f)` on a float. Only reachable when a `str`-typed field
receives a non-integer JSON number, which no schema endpoint does and no
claim exercises; the digit-for-digit `repr` of a binary float is therefore
not modelled and the rational's own rendering stands in for it. -/
def pyFloatRepr (q : ℚ) : String := toString q

/-- Worker for `removeSub`, recursing on a fuel bound so the recursion is
structural; with fuel at least the list's length (the pattern is nonempty,
so each step consumes at least one character) the bound is never hit. -/
def removeSubFuel (pat : List Char) : Nat → List Char → List Char
  | _, [] => []
  | 0, cs => cs
  | fuel + 1, c :: rest =>
    if pat ≠ [] ∧ pat.isPrefixOf (c :: rest) then
      removeSubFuel pat fuel ((c :: rest).drop pat.length)
    else
      c :: removeSubFuel pat fuel rest

/-- Remove every occurrence of the pattern `pat` from `cs`, scanning left to
right and resuming after each removal — Python `cs.replace(pat, '')`. -/
def removeSub (pat cs : List Char) : List Char :=
  removeSubFuel pat cs.length cs

/-- Hexadecimal digit, either case. -/
def isHexChar (c : Char) : Bool :=
  c.isDigit || ('a' ≤ c && c ≤ 'f') || ('A' ≤ c && c ≤ 'F')

/-- Strip leading and trailing curly braces — Python `s.strip('{}')`. -/
def stripBraces (cs : List Char) : List Char :=
  let isBrace : Char → Bool := fun c => c == '\x7b' || c == '\x7d'
  ((cs.dropWhile isBrace).reverse.dropWhile isBrace).reverse

/-- The numeric value of one hex digit. -/
def hexVal (c : Char) : Nat :=
  if c.isDigit then c.toNat - 48
  else if 'a' ≤ c && c ≤ 'f' then c.toNat - 87
  else c.toNat - 55

/-- Hex digit list to a natural number, most significant first. -/
def hexToNat (ds : List Char) : Nat :=
  ds.foldl (fun acc c => acc * 16 + hexVal c) 0

/-- Python `int(x, 16)` on a character list: surrounding whitespace, one
optional sign, an optional `0x`/`0X` prefix (which may be followed by one
underscore), then PEP 515 hex digit groups (checked against CPython:
`int("0x_ff", 16) = 255`, `int("+ff", 16) = 255`, while `"0x__ff"`,
`"_0xff"` and `"0xff_"` raise). Exact for ASCII characters; Python also
accepts non-ASCII decimal digits and whitespace here, outside this
model. -/
def pyIntOfHexChars (cs : List Char) : Option Int :=
  let cs := stripSpaces cs
  let signAndRest : Int × List Char :=
    match cs with
    | '+' :: rest => (1, rest)
    | '-' :: rest => (-1, rest)
    | rest => (1, rest)
  let body : List Char :=
    match signAndRest.2 with
    | '0' :: c :: rest =>
      if c == 'x' || c == 'X' then
        match rest with
        | '_' :: r => r
        | r => r
      else signAndRest.2
    | rest => rest
  if digitGroups isHexChar body then
    some (signAndRest.1 * (hexToNat (body.filter (fun c => c != '_')) : Int))
  else none

/-- The character of one hex digit, lowercase. -/
def hexDigitChar (n : Nat) : Char :=
  if n < 10 then Char.ofNat (48 + n) else Char.ofNat (87 + n)

/-- The 128-bit integer of a `UUID` as 32 zero-padded lowercase hex
digits, most significant first. -/
def natToHex32 (n : Nat) : List Char :=
  (List.range 32).map (fun i => hexDigitChar (n / 16 ^ (31 - i) % 16))

/-- Canonical rendering of a `UUID` value — Python `str(uuid_value)`
formats the 128-bit integer as 32 zero-padded lowercase hex digits in
`8-4-4-4-12` groups. -/
def uuidCanonical (n : Nat) : String :=
  let ls := natToHex32 n
  String.mk (ls.take 8 ++ '-' :: ((ls.drop 8).take 4 ++ '-' ::
    ((ls.drop 12).take 4 ++ '-' :: ((ls.drop 16).take 4 ++ '-' :: ls.drop 20))))

/-- Python `uuid.UUID(s)`, as used by Pydantic v1's UUID validator: remove
every `urn:` and `uuid:` substring, strip surrounding braces, remove all
hyphens, require exactly 32 characters, and give them to `int(hex, 16)` —
which also tolerates whitespace, a sign, a `0x` prefix and PEP 515
underscores within those 32 characters (checked against CPython:
`uuid.UUID("0x" + 30 hex digits)` and `uuid.UUID("+" + 31 hex digits)` are
accepted). The value must lie in `[0, 2^128)`, and the resulting `UUID`
object prints as the canonical form of that value. Exact for ASCII
strings; the C3 theorem restricts itself to ASCII inputs accordingly. -/
def pyUUIDParse (s : String) : Option String :=
  let cs := removeSub "uuid:".data (removeSub "urn:".data s.data)
  let cs := (stripBraces cs).filter (fun c => c != '-')
  if cs.length = 32 then
    match pyIntOfHexChars cs with
    | some n => if 0 ≤ n ∧ n < 2 ^ 128 then some (uuidCanonical n.toNat) else none
    | none => none
  else none

/-! ## Pydantic v1 validation machinery -/

/-- One entry of a Pydantic `ValidationError`: the location path of the
offending field and the message. -/
structure ValErr where
  loc : List String
  msg : String
deriving Repr, DecidableEq

/-- Result of validate-and-construct: the record, or the collected
validation errors. -/
abbrev VRes (α : Type) := Except (List ValErr) α

def errsOf : VRes α → List ValErr
  | .ok _ => []
  | .error es => es

/-- Prepend a location component (field name or list index) to every error,
as Pydantic does when it reports a nested error. -/
def prefixErrs (name : String) : VRes α → VRes α
  | .ok a => .ok a
  | .error es => .error (es.map (fun e => ⟨name :: e.loc, e.msg⟩))

/-- Pydantic v1 `str` field validation: a `str` passes through unchanged;
`bool`/`int`/`float` are coerced with Python `str()` (bool is an `int`
subclass, so `True` becomes `"True"`); anything else fails. -/
def vStr : Json → VRes String
  | .str s => .ok s
  | .bool b => .ok (if b then "True" else "False")
  | .int n => .ok (toString n)
  | .float q => .ok (pyFloatRepr q)
  | _ => .error [⟨[], "str type expected"⟩]

/-- Pydantic v1 `int` field validation: Python `int(v)`, so `int` passes
through, `bool` gives 0/1, `float` truncates toward zero, and a string is
parsed as a decimal integer; anything else fails. -/
def vInt : Json → VRes Int
  | .int n => .ok n
  | .bool b => .ok (if b then 1 else 0)
  | .float q => .ok (pyTruncToInt q)
  | .str s =>
    match pyIntOfString s with
    | some n => .ok n
    | none => .error [⟨[], "value is not a valid integer"⟩]
  | _ => .error [⟨[], "value is not a valid integer"⟩]

/-- Pydantic v1 `float` field validation: Python `float(v)`. -/
def vFloat : Json → VRes ℚ
  | .float q => .ok q
  | .int n => .ok (n : ℚ)
  | .bool b => .ok (if b then 1 else 0)
  | .str s =>
    match pyFloatOfString s with
    | some q => .ok q
    | none => .error [⟨[], "value is not a valid float"⟩]
  | _ => .error [⟨[], "value is not a valid float"⟩]

/-- Pydantic v1 `UUID` field validation on JSON input: a string is given to
`uuid.UUID`; any other JSON value fails. The constructed `UUID` object is
represented by its canonical string. -/
def vUUID : Json → VRes String
  | .str s =>
    match pyUUIDParse s with
    | some u => .ok u
    | none => .error [⟨[], "value is not a valid uuid"⟩]
  | _ => .error [⟨[], "value is not a valid uuid"⟩]

/-- Insert a binding with Python-dict update semantics: an existing key
keeps its position and takes the new value, a new key is appended
(`dict([["a",1],["b",2],["a",3]]) = dict with a=3 first, b=2 second`). -/
def dictUpdate (acc : List (String × Json)) (k : String) (v : Json) :
    List (String × Json) :=
  if acc.any (fun kv => kv.1 == k) then
    acc.map (fun kv => if kv.1 == k then (k, v) else kv)
  else acc ++ [(k, v)]

/-- Python `dict(v)` over the elements of a JSON array, for the
string-keyed shapes: a two-element array `[key, value]` with a string key,
a two-character string (which Python reads as a pair of one-character
strings: `dict(["ab"]) = {"a": "b"}`), and a two-key object (iterating a
dict yields its keys: `dict([{"k1": 1, "k2": 2}]) = {"k1": "k2"}`).
Elements of other lengths raise ValueError and unhashable or non-iterable
elements raise TypeError, all surfacing as the dict error; a pair whose
key is a non-string hashable scalar is accepted by Python but is outside
this model (the record stores keys as strings, and Python's numeric key
equality `1 == 1.0 == True` has no string counterpart) — no claim and no
input reaching this schema exercises that corner. -/
def vDictPairs : List (String × Json) → List Json → VRes (List (String × Json))
  | acc, [] => .ok acc
  | acc, .arr [.str k, v] :: rest => vDictPairs (dictUpdate acc k v) rest
  | acc, .str s :: rest =>
    match s.data with
    | [c1, c2] =>
      vDictPairs (dictUpdate acc (String.mk [c1]) (Json.str (String.mk [c2]))) rest
    | _ => .error [⟨[], "value is not a valid dict"⟩]
  | acc, .obj [(k1, _), (k2, _)] :: rest =>
    vDictPairs (dictUpdate acc k1 (Json.str k2)) rest
  | _, _ => .error [⟨[], "value is not a valid dict"⟩]

/-- Pydantic v1 `dict` field validation: a JSON object passes through
unchanged (its values are not inspected); otherwise `dict_validator` falls
back to Python `dict(v)`, which accepts an iterable of key/value pairs —
a JSON array (see `vDictPairs`) or the empty string (`dict("")` is the
empty dict; any other string is a sequence of one-character elements and
raises). Anything else fails with the dict error. -/
def vDict : Json → VRes (List (String × Json))
  | .obj kvs => .ok kvs
  | .arr xs => vDictPairs [] xs
  | .str "" => .ok []
  | _ => .error [⟨[], "value is not a valid dict"⟩]

/-- Validate the elements of a list field, collecting every element's
errors, each under its index — Pydantic loc `(field, i)`. -/
def vListElems (p : Json → VRes α) : Nat → List Json → VRes (List α)
  | _, [] => .ok []
  | i, x :: rest =>
    match prefixErrs (toString i) (p x), vListElems p (i + 1) rest with
    | .ok a, .ok as => .ok (a :: as)
    | ra, rb => .error (errsOf ra ++ errsOf rb)

/-- Pydantic v1 `List[_]` field validation on JSON input. -/
def vList (p : Json → VRes α) : Json → VRes (List α)
  | .arr xs => vListElems p 0 xs
  | _ => .error [⟨[], "value is not a valid list"⟩]

/-- A required field with no default: missing gives `field required`,
an explicit `null` gives `none is not an allowed value`, otherwise the
field validator runs with errors located under the field's name. -/
def reqField (kvs : List (String × Json)) (name : String) (p : Json → VRes α) : VRes α :=
  match lookupKey kvs name with
  | none => .error [⟨[name], "field required"⟩]
  | some .null => .error [⟨[name], "none is not an allowed value"⟩]
  | some v => prefixErrs name (p v)

/-- An `Optional[_]` field (Pydantic v1 auto-defaults it to `None`):
missing or `null` yields the absent value. -/
def optField (kvs : List (String × Json)) (name : String) (p : Json → VRes α) :
    VRes (Option α) :=
  match lookupKey kvs name with
  | none => .ok none
  | some .null => .ok none
  | some v => (prefixErrs name (p v)).map some

/-- A non-optional field with a default (`Field(default_factory=list)`):
missing yields the default, `null` is rejected. -/
def defField (kvs : List (String × Json)) (name : String) (d : α) (p : Json → VRes α) :
    VRes α :=
  match lookupKey kvs name with
  | none => .ok d
  | some .null => .error [⟨[name], "none is not an allowed value"⟩]
  | some v => prefixErrs name (p v)

/-! ## The eight model classes of `app/schemas.py` -/

/-- `SlotQuery`: request body wrapping one free-text user query. -/
structure SlotQuery where
  query : String
deriving Repr, DecidableEq

/-- `JobPreview`: metadata of one job card. -/
structure JobPreview where
  job_id : Int
  farm_name : String
  region : String
  tags : List String
deriving Repr, DecidableEq

/-- `TourPreview`: metadata of one tour card. -/
structure TourPreview where
  content_id : Int
  title : String
  region : String
  overview : String
  image_url : Option String
deriving Repr, DecidableEq

/-- `SlotsResponse`: response of the `/slots` endpoint. The `slots` field is
an untyped dict, stored as the raw JSON object bindings. -/
structure SlotsResponse where
  slots : List (String × Json)
  jobs_preview : List JobPreview
  tours_preview : List TourPreview
deriving Repr

/-- `RecommendationRequest`: common fields of a recommendation request. The
validated `UUID` object is represented by its canonical string form. -/
structure RecommendationRequest where
  query : String
  user_id : Option String
  budget : Int
deriving Repr, DecidableEq

/-- `RecommendRequest`: extends `RecommendationRequest` with the selected
card ids (Python subclassing is flattened into a record repeating the base
fields first, in the base's declaration order). -/
structure RecommendRequest where
  query : String
  user_id : Option String
  budget : Int
  selected_jobs : List Int
  selected_tours : List Int
deriving Repr, DecidableEq

/-- `ScheduleItem`: one day of the itinerary. -/
structure ScheduleItem where
  day : Int
  date : String
  plan_items : List String
  total_distance_km : Option ℚ
  total_cost_krw : Option Int
deriving Repr, DecidableEq

/-- `Itinerary`: subclasses `ScheduleItem` with `pass` as its whole body —
the same five fields, in the same order, and nothing else. -/
structure Itinerary where
  day : Int
  date : String
  plan_items : List String
  total_distance_km : Option ℚ
  total_cost_krw : Option Int
deriving Repr, DecidableEq

/-! ## Validate-and-construct, one per class -/

/-- Errors reported when the value handed to `parse_obj` is not a dict at
all. -/
def rootNotDict : List ValErr := [⟨["__root__"], "value is not a valid dict"⟩]

/-- Validate-and-construct for `SlotQuery`: one required `str` field
`query`. -/
def validateSlotQuery : Json → VRes SlotQuery
  | .obj kvs =>
    match reqField kvs "query" vStr with
    | .ok q => .ok ⟨q⟩
    | .error es => .error es
  | _ => .error rootNotDict

/-- Validate-and-construct for `JobPreview`: required `job_id : int`,
`farm_name : str`, `region : str`, `tags : List[str]`. All field errors are
collected, in declaration order. -/
def validateJobPreview : Json → VRes JobPreview
  | .obj kvs =>
    let f1 := reqField kvs "job_id" vInt
    let f2 := reqField kvs "farm_name" vStr
    let f3 := reqField kvs "region" vStr
    let f4 := reqField kvs "tags" (vList vStr)
    match f1, f2, f3, f4 with
    | .ok a, .ok b, .ok c, .ok d => .ok ⟨a, b, c, d⟩
    | _, _, _, _ => .error (errsOf f1 ++ errsOf f2 ++ errsOf f3 ++ errsOf f4)
  | _ => .error rootNotDict

/-- Validate-and-construct for `TourPreview`: required `content_id : int`,
`title : str`, `region : str`, `overview : str`, and
`image_url : Optional[str] = None`. -/
def validateTourPreview : Json → VRes TourPreview
  | .obj kvs =>
    let f1 := reqField kvs "content_id" vInt
    let f2 := reqField kvs "title" vStr
    let f3 := reqField kvs "region" vStr
    let f4 := reqField kvs "overview" vStr
    let f5 := optField kvs "image_url" vStr
    match f1, f2, f3, f4, f5 with
    | .ok a, .ok b, .ok c, .ok d, .ok e => .ok ⟨a, b, c, d, e⟩
    | _, _, _, _, _ =>
      .error (errsOf f1 ++ errsOf f2 ++ errsOf f3 ++ errsOf f4 ++ errsOf f5)
  | _ => .error rootNotDict

/-- Validate-and-construct for `SlotsResponse`: required `slots : dict`,
`jobs_preview : List[JobPreview]`, `tours_preview : List[TourPreview]`. -/
def validateSlotsResponse : Json → VRes SlotsResponse
  | .obj kvs =>
    let f1 := reqField kvs "slots" vDict
    let f2 := reqField kvs "jobs_preview" (vList validateJobPreview)
    let f3 := reqField kvs "tours_preview" (vList validateTourPreview)
    match f1, f2, f3 with
    | .ok a, .ok b, .ok c => .ok ⟨a, b, c⟩
    | _, _, _ => .error (errsOf f1 ++ errsOf f2 ++ errsOf f3)
  | _ => .error rootNotDict

/-- Validate-and-construct for `RecommendationRequest`: required
`query : str`, `user_id : Optional[UUID] = None`, required `budget : int`. -/
def validateRecommendationRequest : Json → VRes RecommendationRequest
  | .obj kvs =>
    let f1 := reqField kvs "query" vStr
    let f2 := optField kvs "user_id" vUUID
    let f3 := reqField kvs "budget" vInt
    match f1, f2, f3 with
    | .ok a, .ok b, .ok c => .ok ⟨a, b, c⟩
    | _, _, _ => .error (errsOf f1 ++ errsOf f2 ++ errsOf f3)
  | _ => .error rootNotDict

/-- Validate-and-construct for `RecommendRequest`: the three inherited
fields, then `selected_jobs : List[int]` and `selected_tours : List[int]`,
each with `default_factory=list`. -/
def validateRecommendRequest : Json → VRes RecommendRequest
  | .obj kvs =>
    let f1 := reqField kvs "query" vStr
    let f2 := optField kvs "user_id" vUUID
    let f3 := reqField kvs "budget" vInt
    let f4 := defField kvs "selected_jobs" [] (vList vInt)
    let f5 := defField kvs "selected_tours" [] (vList vInt)
    match f1, f2, f3, f4, f5 with
    | .ok a, .ok b, .ok c, .ok d, .ok e => .ok ⟨a, b, c, d, e⟩
    | _, _, _, _, _ =>
      .error (errsOf f1 ++ errsOf f2 ++ errsOf f3 ++ errsOf f4 ++ errsOf f5)
  | _ => .error rootNotDict

/-- Validate-and-construct for `ScheduleItem`: required `day : int`,
`date : str`, `plan_items : List[str]`, then `total_distance_km :
Optional[float]` and `total_cost_krw : Optional[int]` (Pydantic v1
auto-defaults bare `Optional` fields to `None`). -/
def validateScheduleItem : Json → VRes ScheduleItem
  | .obj kvs =>
    let f1 := reqField kvs "day" vInt
    let f2 := reqField kvs "date" vStr
    let f3 := reqField kvs "plan_items" (vList vStr)
    let f4 := optField kvs "total_distance_km" vFloat
    let f5 := optField kvs "total_cost_krw" vInt
    match f1, f2, f3, f4, f5 with
    | .ok a, .ok b, .ok c, .ok d, .ok e => .ok ⟨a, b, c, d, e⟩
    | _, _, _, _, _ =>
      .error (errsOf f1 ++ errsOf f2 ++ errsOf f3 ++ errsOf f4 ++ errsOf f5)
  | _ => .error rootNotDict

/-- Validate-and-construct for `Itinerary`: the subclass adds no field and
overrides nothing, so the inherited validation runs the same five field
checks in the same order. -/
def validateItinerary : Json → VRes Itinerary
  | .obj kvs =>
    let f1 := reqField kvs "day" vInt
    let f2 := reqField kvs "date" vStr
    let f3 := reqField kvs "plan_items" (vList vStr)
    let f4 := optField kvs "total_distance_km" vFloat
    let f5 := optField kvs "total_cost_krw" vInt
    match f1, f2, f3, f4, f5 with
    | .ok a, .ok b, .ok c, .ok d, .ok e => .ok ⟨a, b, c, d, e⟩
    | _, _, _, _, _ =>
      .error (errsOf f1 ++ errsOf f2 ++ errsOf f3 ++ errsOf f4 ++ errsOf f5)
  | _ => .error rootNotDict

/-! ## Serialization (`.json()` / `.dict()`), one per class.
Pydantic renders every field, in field-declaration order (base-class fields
first for a subclass); absent optionals render as `null`. -/

/-- Render an optional field: `None` serializes as `null`. -/
def optJson (f : α → Json) : Option α → Json
  | none => .null
  | some a => f a

def serializeSlotQuery (r : SlotQuery) : Json :=
  .obj [("query", .str r.query)]

def serializeJobPreview (r : JobPreview) : Json :=
  .obj [("job_id", .int r.job_id), ("farm_name", .str r.farm_name),
    ("region", .str r.region), ("tags", .arr (r.tags.map Json.str))]

def serializeTourPreview (r : TourPreview) : Json :=
  .obj [("content_id", .int r.content_id), ("title", .str r.title),
    ("region", .str r.region), ("overview", .str r.overview),
    ("image_url", optJson Json.str r.image_url)]

def serializeSlotsResponse (r : SlotsResponse) : Json :=
  .obj [("slots", .obj r.slots),
    ("jobs_preview", .arr (r.jobs_preview.map serializeJobPreview)),
    ("tours_preview", .arr (r.tours_preview.map serializeTourPreview))]

def serializeRecommendationRequest (r : RecommendationRequest) : Json :=
  .obj [("query", .str r.query), ("user_id", optJson Json.str r.user_id),
    ("budget", .int r.budget)]

def serializeRecommendRequest (r : RecommendRequest) : Json :=
  .obj [("query", .str r.query), ("user_id", optJson Json.str r.user_id),
    ("budget", .int r.budget),
    ("selected_jobs", .arr (r.selected_jobs.map Json.int)),
    ("selected_tours", .arr (r.selected_tours.map Json.int))]

def serializeScheduleItem (r : ScheduleItem) : Json :=
  .obj [("day", .int r.day), ("date", .str r.date),
    ("plan_items", .arr (r.plan_items.map Json.str)),
    ("total_distance_km", optJson Json.float r.total_distance_km),
    ("total_cost_krw", optJson Json.int r.total_cost_krw)]

def serializeItinerary (r : Itinerary) : Json :=
  .obj [("day", .int r.day), ("date", .str r.date),
    ("plan_items", .arr (r.plan_items.map Json.str)),
    ("total_distance_km", optJson Json.float r.total_distance_km),
    ("total_cost_krw", optJson Json.int r.total_cost_krw)]

/-- The key list of a JSON object (empty for non-objects). -/
def objKeys : Json → List String
  | .obj kvs => kvs.map Prod.fst
  | _ => []

/-- The binding list of a JSON object (empty for non-objects). -/
def objFields : Json → List (String × Json)
  | .obj kvs => kvs
  | _ => []

/-! ## Round-trip comparison.
`covers x y` says the serialized output `y` reproduces every field value
present in the input `x`: every key of an input object appears in the
output with a covering value, arrays match pointwise, scalars are equal.
(The output may carry additional keys — the defaults Pydantic fills in.) -/

mutual

def covers : Json → Json → Bool
  | .obj kvs, .obj out => coversFields kvs out
  | .arr xs, .arr ys => coversList xs ys
  | a, b => Json.beq a b

def coversFields : List (String × Json) → List (String × Json) → Bool
  | [], _ => true
  | (k, v) :: rest, out =>
    (match lookupKey out k with
     | some w => covers v w
     | none => false) && coversFields rest out

def coversList : List Json → List Json → Bool
  | [], [] => true
  | x :: xs, y :: ys => covers x y && coversList xs ys
  | _, _ => false

end

/-! ## Well-formed input: the claims' "JSON matching the record type's
declared shape" — correct field names only, required fields present, and
each present value of the field's declared type. -/

/-- Every key of the object is a declared field name. -/
def keysIn (kvs : List (String × Json)) (allowed : List String) : Bool :=
  kvs.all (fun kv => allowed.contains kv.1)

/-- A required field: present, and its value satisfies the shape check. -/
def wfReq (kvs : List (String × Json)) (name : String) (p : Json → Bool) : Bool :=
  match lookupKey kvs name with
  | some v => p v
  | none => false

/-- An optional (nullable) field: absent, `null`, or a value of the
declared shape. -/
def wfOpt (kvs : List (String × Json)) (name : String) (p : Json → Bool) : Bool :=
  match lookupKey kvs name with
  | none => true
  | some .null => true
  | some v => p v

/-- A defaulted non-nullable field: absent, or a value of the declared
shape (`null` is not of the declared `List[int]` type). -/
def wfDef (kvs : List (String × Json)) (name : String) (p : Json → Bool) : Bool :=
  match lookupKey kvs name with
  | none => true
  | some v => p v

def wfStr : Json → Bool
  | .str _ => true
  | _ => false

def wfInt : Json → Bool
  | .int _ => true
  | _ => false

def wfFloat : Json → Bool
  | .float _ => true
  | _ => false

/-- A string value of the declared `UUID` type: one `uuid.UUID` accepts. -/
def wfUUIDStr : Json → Bool
  | .str s => (pyUUIDParse s).isSome
  | _ => false

/-- A `UUID` string in canonical form: parsing returns the string itself
(lowercase, hyphenated `8-4-4-4-12`). -/
def wfCanonUUIDStr : Json → Bool
  | .str s => pyUUIDParse s == some s
  | _ => false

def wfArrOf (p : Json → Bool) : Json → Bool
  | .arr xs => xs.all p
  | _ => false

mutual

/-- All objects nested in the value have pairwise-distinct keys — true of
any value produced by `json.loads`, whose objects are Python dicts. -/
def dictsOk : Json → Bool
  | .obj kvs => keysNodup kvs && dictsOkFields kvs
  | .arr xs => dictsOkList xs
  | _ => true

def dictsOkFields : List (String × Json) → Bool
  | [] => true
  | (_, v) :: rest => dictsOk v && dictsOkFields rest

def dictsOkList : List Json → Bool
  | [] => true
  | x :: xs => dictsOk x && dictsOkList xs

end

/-- A value of the declared `dict` type: a JSON object (with genuinely
dict-like contents). -/
def wfDictVal : Json → Bool
  | .obj kvs => keysNodup kvs && dictsOkFields kvs
  | _ => false

/-- Declared shape of a `SlotQuery` input. -/
def wfSlotQuery : Json → Bool
  | .obj kvs =>
    keysNodup kvs && keysIn kvs ["query"] && wfReq kvs "query" wfStr
  | _ => false

/-- Declared shape of a `JobPreview` input. -/
def wfJobPreview : Json → Bool
  | .obj kvs =>
    keysNodup kvs && keysIn kvs ["job_id", "farm_name", "region", "tags"] &&
    wfReq kvs "job_id" wfInt && wfReq kvs "farm_name" wfStr &&
    wfReq kvs "region" wfStr && wfReq kvs "tags" (wfArrOf wfStr)
  | _ => false

/-- Declared shape of a `TourPreview` input. -/
def wfTourPreview : Json → Bool
  | .obj kvs =>
    keysNodup kvs && keysIn kvs ["content_id", "title", "region", "overview", "image_url"] &&
    wfReq kvs "content_id" wfInt && wfReq kvs "title" wfStr &&
    wfReq kvs "region" wfStr && wfReq kvs "overview" wfStr &&
    wfOpt kvs "image_url" wfStr
  | _ => false

/-- Declared shape of a `SlotsResponse` input. -/
def wfSlotsResponse : Json → Bool
  | .obj kvs =>
    keysNodup kvs && keysIn kvs ["slots", "jobs_preview", "tours_preview"] &&
    wfReq kvs "slots" wfDictVal &&
    wfReq kvs "jobs_preview" (wfArrOf wfJobPreview) &&
    wfReq kvs "tours_preview" (wfArrOf wfTourPreview)
  | _ => false

/-- Declared shape of a `RecommendationRequest` input, reading the declared
`Optional[UUID]` type as: any string `uuid.UUID` accepts. -/
def wfRecommendationRequest : Json → Bool
  | .obj kvs =>
    keysNodup kvs && keysIn kvs ["query", "user_id", "budget"] &&
    wfReq kvs "query" wfStr && wfOpt kvs "user_id" wfUUIDStr &&
    wfReq kvs "budget" wfInt
  | _ => false

/-- As `wfRecommendationRequest`, but with `user_id` (when present) in
canonical UUID form. -/
def wfCanonRecommendationRequest : Json → Bool
  | .obj kvs =>
    keysNodup kvs && keysIn kvs ["query", "user_id", "budget"] &&
    wfReq kvs "query" wfStr && wfOpt kvs "user_id" wfCanonUUIDStr &&
    wfReq kvs "budget" wfInt
  | _ => false

/-- Declared shape of a `RecommendRequest` input (canonical `user_id`). -/
def wfCanonRecommendRequest : Json → Bool
  | .obj kvs =>
    keysNodup kvs &&
    keysIn kvs ["query", "user_id", "budget", "selected_jobs", "selected_tours"] &&
    wfReq kvs "query" wfStr && wfOpt kvs "user_id" wfCanonUUIDStr &&
    wfReq kvs "budget" wfInt &&
    wfDef kvs "selected_jobs" (wfArrOf wfInt) &&
    wfDef kvs "selected_tours" (wfArrOf wfInt)
  | _ => false

/-- Declared shape of a `ScheduleItem` input. -/
def wfScheduleItem : Json → Bool
  | .obj kvs =>
    keysNodup kvs &&
    keysIn kvs ["day", "date", "plan_items", "total_distance_km", "total_cost_krw"] &&
    wfReq kvs "day" wfInt && wfReq kvs "date" wfStr &&
    wfReq kvs "plan_items" (wfArrOf wfStr) &&
    wfOpt kvs "total_distance_km" wfFloat && wfOpt kvs "total_cost_krw" wfInt
  | _ => false

/-- Declared shape of an `Itinerary` input: the subclass declares no field
of its own, so the shape is `ScheduleItem`'s. -/
def wfItinerary : Json → Bool := wfScheduleItem
/-- Every character is ASCII. On ASCII strings the embedded `int(s)` and
`uuid.UUID(s)` are exact models of Python's; Python additionally accepts
some non-ASCII forms (Unicode decimal digits, non-ASCII whitespace) that
are outside the model, so the C3 theorem quantifies over ASCII values
only. -/
def asciiOnly (s : String) : Bool :=
  s.data.all (fun c => c.toNat < 128)

/-! ## Helper lemmas -/

theorem lookupKey_some_any {l : List (String × Json)} {name : String} {v : Json}
    (h : lookupKey l name = some v) : l.any (fun kv => kv.1 == name) = true := by
  induction l with
  | nil => simp [lookupKey] at h
  | cons kv rest ih =>
    obtain ⟨k, w⟩ := kv
    simp only [lookupKey] at h
    cases hk : (k == name) with
    | true => simp [List.any_cons, hk]
    | false =>
      rw [hk] at h
      simp only [Bool.false_eq_true, if_false] at h
      simp [List.any_cons, hk, ih h]

theorem lookupKey_of_mem {l : List (String × Json)} {k : String} {v : Json}
    (hnd : keysNodup l = true) (hm : (k, v) ∈ l) : lookupKey l k = some v := by
  induction l with
  | nil => simp at hm
  | cons kv rest ih =>
    obtain ⟨k2, w⟩ := kv
    simp only [keysNodup, Bool.and_eq_true, Bool.not_eq_true'] at hnd
    rcases List.mem_cons.mp hm with heq | hmem
    · injection heq with hk hv
      subst hk
      subst hv
      simp [lookupKey]
    · have hrest := ih hnd.2 hmem
      have hany : rest.any (fun kv => kv.1 == k) = true := lookupKey_some_any hrest
      cases h2 : (k2 == k) with
      | false => simp [lookupKey, h2, hrest]
      | true =>
        have hkk : k2 = k := eq_of_beq h2
        subst hkk
        simp [hnd.1] at hany

theorem keysIn_mem {kvs : List (String × Json)} {allowed : List String} {k : String}
    {v : Json} (h : keysIn kvs allowed = true) (hm : (k, v) ∈ kvs) : k ∈ allowed := by
  have := List.all_eq_true.mp h (k, v) hm
  simpa using this

theorem wfReq_elim {kvs : List (String × Json)} {name : String} {p : Json → Bool}
    (h : wfReq kvs name p = true) : ∃ v, lookupKey kvs name = some v ∧ p v = true := by
  unfold wfReq at h
  cases hl : lookupKey kvs name with
  | none => rw [hl] at h; exact absurd h (by simp)
  | some v => rw [hl] at h; exact ⟨v, rfl, h⟩

theorem wfOpt_elim {kvs : List (String × Json)} {name : String} {p : Json → Bool}
    (h : wfOpt kvs name p = true) :
    lookupKey kvs name = none ∨ lookupKey kvs name = some .null ∨
      ∃ v, lookupKey kvs name = some v ∧ p v = true ∧ v ≠ .null := by
  unfold wfOpt at h
  cases hl : lookupKey kvs name with
  | none => exact Or.inl rfl
  | some v =>
    cases v with
    | null => exact Or.inr (Or.inl rfl)
    | bool b => rw [hl] at h; exact Or.inr (Or.inr ⟨.bool b, rfl, h, by simp⟩)
    | int n => rw [hl] at h; exact Or.inr (Or.inr ⟨.int n, rfl, h, by simp⟩)
    | float q => rw [hl] at h; exact Or.inr (Or.inr ⟨.float q, rfl, h, by simp⟩)
    | str s => rw [hl] at h; exact Or.inr (Or.inr ⟨.str s, rfl, h, by simp⟩)
    | arr xs => rw [hl] at h; exact Or.inr (Or.inr ⟨.arr xs, rfl, h, by simp⟩)
    | obj kvs2 => rw [hl] at h; exact Or.inr (Or.inr ⟨.obj kvs2, rfl, h, by simp⟩)

theorem wfDef_elim {kvs : List (String × Json)} {name : String} {p : Json → Bool}
    (h : wfDef kvs name p = true) :
    lookupKey kvs name = none ∨ ∃ v, lookupKey kvs name = some v ∧ p v = true := by
  unfold wfDef at h
  cases hl : lookupKey kvs name with
  | none => exact Or.inl rfl
  | some v => rw [hl] at h; exact Or.inr ⟨v, rfl, h⟩

theorem wfStr_elim {v : Json} (h : wfStr v = true) : ∃ s, v = .str s := by
  cases v <;> simp_all [wfStr]

theorem wfInt_elim {v : Json} (h : wfInt v = true) : ∃ n, v = .int n := by
  cases v <;> simp_all [wfInt]

theorem wfFloat_elim {v : Json} (h : wfFloat v = true) : ∃ q, v = .float q := by
  cases v <;> simp_all [wfFloat]

theorem wfUUIDStr_elim {v : Json} (h : wfUUIDStr v = true) :
    ∃ s u, v = .str s ∧ pyUUIDParse s = some u := by
  cases v with
  | str s =>
    simp only [wfUUIDStr, Option.isSome_iff_exists] at h
    obtain ⟨u, hu⟩ := h
    exact ⟨s, u, rfl, hu⟩
  | _ => simp [wfUUIDStr] at h

theorem wfCanonUUIDStr_elim {v : Json} (h : wfCanonUUIDStr v = true) :
    ∃ s, v = .str s ∧ pyUUIDParse s = some s := by
  cases v with
  | str s =>
    simp only [wfCanonUUIDStr, beq_iff_eq] at h
    exact ⟨s, rfl, h⟩
  | _ => simp [wfCanonUUIDStr] at h

theorem wfArrOf_elim {p : Json → Bool} {v : Json} (h : wfArrOf p v = true) :
    ∃ xs, v = .arr xs ∧ xs.all p = true := by
  cases v <;> simp_all [wfArrOf]

theorem wfDictVal_elim {v : Json} (h : wfDictVal v = true) :
    ∃ kvs, v = .obj kvs ∧ keysNodup kvs = true ∧ dictsOkFields kvs = true := by
  cases v <;> simp_all [wfDictVal]

theorem coversFields_of_lookup {kvs out : List (String × Json)} {allowed : List String}
    (hnd : keysNodup kvs = true) (hkeys : keysIn kvs allowed = true)
    (h : ∀ k, k ∈ allowed → ∀ v, lookupKey kvs k = some v →
      ∃ w, lookupKey out k = some w ∧ covers v w = true) :
    coversFields kvs out = true := by
  induction kvs with
  | nil => simp [coversFields]
  | cons kv rest ih =>
    obtain ⟨k, v⟩ := kv
    simp only [keysNodup, Bool.and_eq_true, Bool.not_eq_true'] at hnd
    simp only [keysIn, List.all_cons, Bool.and_eq_true] at hkeys
    have hk : k ∈ allowed := by simpa using hkeys.1
    have hlk : lookupKey ((k, v) :: rest) k = some v := by simp [lookupKey]
    obtain ⟨w, hw, hcv⟩ := h k hk v hlk
    have htail : coversFields rest out = true := by
      apply ih hnd.2 hkeys.2
      intro k2 hk2 v2 hl2
      have hany : rest.any (fun kv => kv.1 == k2) = true := lookupKey_some_any hl2
      have hne : (k == k2) = false := by
        cases hb : (k == k2) with
        | false => rfl
        | true =>
          have : k = k2 := eq_of_beq hb
          subst this
          simp [hnd.1] at hany
      apply h k2 hk2 v2
      simp [lookupKey, hne, hl2]
    simp [coversFields, hw, hcv, htail]

theorem coversFields_of_self {sub out : List (String × Json)}
    (h : ∀ kv ∈ sub, lookupKey out kv.1 = some kv.2 ∧ covers kv.2 kv.2 = true) :
    coversFields sub out = true := by
  induction sub with
  | nil => simp [coversFields]
  | cons kv rest ih =>
    obtain ⟨k, v⟩ := kv
    obtain ⟨hl, hc⟩ := h (k, v) (List.mem_cons_self _ _)
    have htail := ih (fun kv hm => h kv (List.mem_cons_of_mem _ hm))
    simp [coversFields, hl, hc, htail]

mutual

theorem covers_refl : ∀ j : Json, dictsOk j = true → covers j j = true
  | .null, _ => by simp [covers, Json.beq]
  | .bool b, _ => by simp [covers, Json.beq]
  | .int n, _ => by simp [covers, Json.beq]
  | .float q, _ => by simp [covers, Json.beq]
  | .str s, _ => by simp [covers, Json.beq]
  | .arr xs, h => by
    simp only [dictsOk] at h
    simpa [covers] using coversList_refl xs h
  | .obj kvs, h => by
    simp only [dictsOk, Bool.and_eq_true] at h
    have := coversMem_refl kvs h.2
    simp only [covers]
    exact coversFields_of_self (fun kv hm => ⟨lookupKey_of_mem h.1 hm, this kv hm⟩)

theorem coversList_refl : ∀ xs : List Json, dictsOkList xs = true →
    coversList xs xs = true
  | [], _ => by simp [coversList]
  | x :: rest, h => by
    simp only [dictsOkList, Bool.and_eq_true] at h
    simp [coversList, covers_refl x h.1, coversList_refl rest h.2]

theorem coversMem_refl : ∀ kvs : List (String × Json), dictsOkFields kvs = true →
    ∀ kv ∈ kvs, covers kv.2 kv.2 = true
  | (_, v) :: rest, h, kv, hm => by
    simp only [dictsOkFields, Bool.and_eq_true] at h
    rcases List.mem_cons.mp hm with heq | hmem
    · subst heq
      exact covers_refl v h.1
    · exact coversMem_refl rest h.2 kv hmem

end

theorem vListElems_ok_covers {α : Type} {p : Json → VRes α} {P : Json → Bool}
    (g : α → Json)
    (hp : ∀ x, P x = true → ∃ a, p x = .ok a ∧ covers x (g a) = true) :
    ∀ (xs : List Json) (i : Nat), xs.all P = true →
      ∃ as, vListElems p i xs = .ok as ∧ coversList xs (as.map g) = true := by
  intro xs
  induction xs with
  | nil => exact fun i _ => ⟨[], rfl, by simp [coversList]⟩
  | cons x rest ih =>
    intro i h
    simp only [List.all_cons, Bool.and_eq_true] at h
    obtain ⟨a, ha, hca⟩ := hp x h.1
    obtain ⟨as, has, hcas⟩ := ih (i + 1) h.2
    refine ⟨a :: as, ?_, ?_⟩
    · simp [vListElems, prefixErrs, ha, has]
    · simp [List.map_cons, coversList, hca, hcas]

theorem roundTrip_SlotQuery {j : Json} (h : wfSlotQuery j = true) :
    ∃ r, validateSlotQuery j = .ok r ∧ covers j (serializeSlotQuery r) = true := by
  cases j <;> simp only [wfSlotQuery, Bool.and_eq_true] at h <;>
    try exact (Bool.false_ne_true h).elim
  case obj kvs =>
  obtain ⟨⟨hnd, hkeys⟩, hq⟩ := h
  obtain ⟨v, hlv, hpv⟩ := wfReq_elim hq
  obtain ⟨s, rfl⟩ := wfStr_elim hpv
  refine ⟨⟨s⟩, ?_, ?_⟩
  · simp [validateSlotQuery, reqField, hlv, prefixErrs, vStr]
  · simp only [serializeSlotQuery, covers]
    apply coversFields_of_lookup hnd hkeys
    intro k hk v hv
    simp only [List.mem_singleton] at hk
    subst hk
    rw [hlv] at hv
    obtain rfl := Option.some.inj hv
    exact ⟨.str s, by simp [lookupKey], by simp [covers, Json.beq]⟩

theorem vStr_covers : ∀ x, wfStr x = true →
    ∃ a, vStr x = .ok a ∧ covers x (Json.str a) = true := by
  intro x hx
  obtain ⟨s, rfl⟩ := wfStr_elim hx
  exact ⟨s, rfl, by simp [covers, Json.beq]⟩

theorem vInt_covers : ∀ x, wfInt x = true →
    ∃ a, vInt x = .ok a ∧ covers x (Json.int a) = true := by
  intro x hx
  obtain ⟨n, rfl⟩ := wfInt_elim hx
  exact ⟨n, rfl, by simp [covers, Json.beq]⟩

theorem roundTrip_JobPreview {j : Json} (h : wfJobPreview j = true) :
    ∃ r, validateJobPreview j = .ok r ∧ covers j (serializeJobPreview r) = true := by
  cases j <;> simp only [wfJobPreview, Bool.and_eq_true] at h <;>
    try exact (Bool.false_ne_true h).elim
  case obj kvs =>
  obtain ⟨⟨⟨⟨⟨hnd, hkeys⟩, h1⟩, h2⟩, h3⟩, h4⟩ := h
  obtain ⟨v1, hl1, hp1⟩ := wfReq_elim h1
  obtain ⟨n, rfl⟩ := wfInt_elim hp1
  obtain ⟨v2, hl2, hp2⟩ := wfReq_elim h2
  obtain ⟨s2, rfl⟩ := wfStr_elim hp2
  obtain ⟨v3, hl3, hp3⟩ := wfReq_elim h3
  obtain ⟨s3, rfl⟩ := wfStr_elim hp3
  obtain ⟨v4, hl4, hp4⟩ := wfReq_elim h4
  obtain ⟨xs, rfl, hall⟩ := wfArrOf_elim hp4
  obtain ⟨as, has, hcas⟩ := vListElems_ok_covers Json.str vStr_covers xs 0 hall
  refine ⟨⟨n, s2, s3, as⟩, ?_, ?_⟩
  · simp [validateJobPreview, reqField, hl1, hl2, hl3, hl4, vInt, vStr, vList,
      prefixErrs, has]
  · simp only [serializeJobPreview, covers]
    apply coversFields_of_lookup hnd hkeys
    intro k hk v hv
    simp only [List.mem_cons, List.mem_singleton, List.not_mem_nil, or_false] at hk
    rcases hk with rfl | rfl | rfl | rfl
    · rw [hl1] at hv
      obtain rfl := Option.some.inj hv
      exact ⟨.int n, by simp [lookupKey], by simp [covers, Json.beq]⟩
    · rw [hl2] at hv
      obtain rfl := Option.some.inj hv
      exact ⟨.str s2, by simp [lookupKey], by simp [covers, Json.beq]⟩
    · rw [hl3] at hv
      obtain rfl := Option.some.inj hv
      exact ⟨.str s3, by simp [lookupKey], by simp [covers, Json.beq]⟩
    · rw [hl4] at hv
      obtain rfl := Option.some.inj hv
      exact ⟨.arr (as.map Json.str), by simp [lookupKey], by simp [covers, hcas]⟩

theorem roundTrip_TourPreview {j : Json} (h : wfTourPreview j = true) :
    ∃ r, validateTourPreview j = .ok r ∧ covers j (serializeTourPreview r) = true := by
  cases j <;> simp only [wfTourPreview, Bool.and_eq_true] at h <;>
    try exact (Bool.false_ne_true h).elim
  case obj kvs =>
  obtain ⟨⟨⟨⟨⟨⟨hnd, hkeys⟩, h1⟩, h2⟩, h3⟩, h4⟩, h5⟩ := h
  obtain ⟨v1, hl1, hp1⟩ := wfReq_elim h1
  obtain ⟨n, rfl⟩ := wfInt_elim hp1
  obtain ⟨v2, hl2, hp2⟩ := wfReq_elim h2
  obtain ⟨s2, rfl⟩ := wfStr_elim hp2
  obtain ⟨v3, hl3, hp3⟩ := wfReq_elim h3
  obtain ⟨s3, rfl⟩ := wfStr_elim hp3
  obtain ⟨v4, hl4, hp4⟩ := wfReq_elim h4
  obtain ⟨s4, rfl⟩ := wfStr_elim hp4
  have hother : ∀ (img : Option String), lookupKey kvs "image_url" = none ∨
      (∃ w, lookupKey kvs "image_url" = some w ∧
        covers w (optJson Json.str img) = true) →
      covers (Json.obj kvs)
        (serializeTourPreview ⟨n, s2, s3, s4, img⟩) = true := by
    intro img himg
    simp only [serializeTourPreview, covers]
    apply coversFields_of_lookup hnd hkeys
    intro k hk v hv
    simp only [List.mem_cons, List.mem_singleton, List.not_mem_nil, or_false] at hk
    rcases hk with rfl | rfl | rfl | rfl | rfl
    · rw [hl1] at hv
      obtain rfl := Option.some.inj hv
      exact ⟨.int n, by simp [lookupKey], by simp [covers, Json.beq]⟩
    · rw [hl2] at hv
      obtain rfl := Option.some.inj hv
      exact ⟨.str s2, by simp [lookupKey], by simp [covers, Json.beq]⟩
    · rw [hl3] at hv
      obtain rfl := Option.some.inj hv
      exact ⟨.str s3, by simp [lookupKey], by simp [covers, Json.beq]⟩
    · rw [hl4] at hv
      obtain rfl := Option.some.inj hv
      exact ⟨.str s4, by simp [lookupKey], by simp [covers, Json.beq]⟩
    · rcases himg with hnone | ⟨w, hw, hcw⟩
      · rw [hnone] at hv
        exact absurd hv (by simp)
      · rw [hw] at hv
        obtain rfl := Option.some.inj hv
        exact ⟨optJson Json.str img, by simp [lookupKey], hcw⟩
  rcases wfOpt_elim h5 with hnone | hnull | ⟨v5, hl5, hp5, hne5⟩
  · refine ⟨⟨n, s2, s3, s4, none⟩, ?_, hother none (Or.inl hnone)⟩
    simp [validateTourPreview, reqField, optField, hl1, hl2, hl3, hl4, hnone,
      vInt, vStr, prefixErrs]
  · refine ⟨⟨n, s2, s3, s4, none⟩, ?_, hother none (Or.inr ⟨.null, hnull,
      by simp [covers, optJson, Json.beq]⟩)⟩
    simp [validateTourPreview, reqField, optField, hl1, hl2, hl3, hl4, hnull,
      vInt, vStr, prefixErrs]
  · obtain ⟨s5, rfl⟩ := wfStr_elim hp5
    refine ⟨⟨n, s2, s3, s4, some s5⟩, ?_, hother (some s5) (Or.inr ⟨.str s5, hl5,
      by simp [covers, optJson, Json.beq]⟩)⟩
    simp [validateTourPreview, reqField, optField, hl1, hl2, hl3, hl4, hl5,
      vInt, vStr, prefixErrs, Except.map]

theorem roundTrip_SlotsResponse {j : Json} (h : wfSlotsResponse j = true) :
    ∃ r, validateSlotsResponse j = .ok r ∧ covers j (serializeSlotsResponse r) = true := by
  cases j <;> simp only [wfSlotsResponse, Bool.and_eq_true] at h <;>
    try exact (Bool.false_ne_true h).elim
  case obj kvs =>
  obtain ⟨⟨⟨⟨hnd, hkeys⟩, h1⟩, h2⟩, h3⟩ := h
  obtain ⟨v1, hl1, hp1⟩ := wfReq_elim h1
  obtain ⟨kvs1, rfl, hnd1, hdict1⟩ := wfDictVal_elim hp1
  obtain ⟨v2, hl2, hp2⟩ := wfReq_elim h2
  obtain ⟨xs2, rfl, hall2⟩ := wfArrOf_elim hp2
  obtain ⟨v3, hl3, hp3⟩ := wfReq_elim h3
  obtain ⟨xs3, rfl, hall3⟩ := wfArrOf_elim hp3
  obtain ⟨as2, has2, hcas2⟩ := vListElems_ok_covers serializeJobPreview
    (fun x hx => roundTrip_JobPreview hx) xs2 0 hall2
  obtain ⟨as3, has3, hcas3⟩ := vListElems_ok_covers serializeTourPreview
    (fun x hx => roundTrip_TourPreview hx) xs3 0 hall3
  refine ⟨⟨kvs1, as2, as3⟩, ?_, ?_⟩
  · simp [validateSlotsResponse, reqField, hl1, hl2, hl3, vDict, vList,
      prefixErrs, has2, has3]
  · simp only [serializeSlotsResponse, covers]
    apply coversFields_of_lookup hnd hkeys
    intro k hk v hv
    simp only [List.mem_cons, List.mem_singleton, List.not_mem_nil, or_false] at hk
    rcases hk with rfl | rfl | rfl
    · rw [hl1] at hv
      obtain rfl := Option.some.inj hv
      refine ⟨.obj kvs1, by simp [lookupKey], ?_⟩
      exact covers_refl (.obj kvs1) (by simp [dictsOk, hnd1, hdict1])
    · rw [hl2] at hv
      obtain rfl := Option.some.inj hv
      exact ⟨.arr (as2.map serializeJobPreview), by simp [lookupKey],
        by simp [covers, hcas2]⟩
    · rw [hl3] at hv
      obtain rfl := Option.some.inj hv
      exact ⟨.arr (as3.map serializeTourPreview), by simp [lookupKey],
        by simp [covers, hcas3]⟩

theorem optUUID_ok {kvs : List (String × Json)}
    (h : wfOpt kvs "user_id" wfCanonUUIDStr = true) :
    ∃ u, optField kvs "user_id" vUUID = .ok u ∧
      ∀ v, lookupKey kvs "user_id" = some v →
        covers v (optJson Json.str u) = true := by
  rcases wfOpt_elim h with hnone | hnull | ⟨v, hl, hp, hne⟩
  · exact ⟨none, by simp [optField, hnone], fun v hv => by rw [hnone] at hv; cases hv⟩
  · refine ⟨none, by simp [optField, hnull], fun v hv => ?_⟩
    rw [hnull] at hv
    obtain rfl := Option.some.inj hv
    simp [covers, optJson, Json.beq]
  · obtain ⟨s, rfl, hu⟩ := wfCanonUUIDStr_elim hp
    refine ⟨some s, ?_, fun v hv => ?_⟩
    · simp [optField, hl, vUUID, hu, prefixErrs, Except.map]
    · rw [hl] at hv
      obtain rfl := Option.some.inj hv
      simp [covers, optJson, Json.beq]

theorem defIntList_ok {kvs : List (String × Json)} {name : String}
    (h : wfDef kvs name (wfArrOf wfInt) = true) :
    ∃ ns, defField kvs name [] (vList vInt) = .ok ns ∧
      ∀ v, lookupKey kvs name = some v →
        covers v (Json.arr (ns.map Json.int)) = true := by
  rcases wfDef_elim h with hnone | ⟨v, hl, hp⟩
  · exact ⟨[], by simp [defField, hnone], fun v hv => by rw [hnone] at hv; cases hv⟩
  · obtain ⟨xs, rfl, hall⟩ := wfArrOf_elim hp
    obtain ⟨ns, hns, hcns⟩ := vListElems_ok_covers Json.int vInt_covers xs 0 hall
    refine ⟨ns, ?_, fun v hv => ?_⟩
    · simp [defField, hl, vList, prefixErrs, hns]
    · rw [hl] at hv
      obtain rfl := Option.some.inj hv
      simp [covers, hcns]

theorem roundTrip_RecommendationRequest {j : Json}
    (h : wfCanonRecommendationRequest j = true) :
    ∃ r, validateRecommendationRequest j = .ok r ∧
      covers j (serializeRecommendationRequest r) = true := by
  cases j <;> simp only [wfCanonRecommendationRequest, Bool.and_eq_true] at h <;>
    try exact (Bool.false_ne_true h).elim
  case obj kvs =>
  obtain ⟨⟨⟨⟨hnd, hkeys⟩, h1⟩, h2⟩, h3⟩ := h
  obtain ⟨v1, hl1, hp1⟩ := wfReq_elim h1
  obtain ⟨s, rfl⟩ := wfStr_elim hp1
  obtain ⟨u, hu, hcu⟩ := optUUID_ok h2
  obtain ⟨v3, hl3, hp3⟩ := wfReq_elim h3
  obtain ⟨b, rfl⟩ := wfInt_elim hp3
  refine ⟨⟨s, u, b⟩, ?_, ?_⟩
  · simp [validateRecommendationRequest, reqField, hl1, hl3, vStr, vInt,
      prefixErrs, hu]
  · simp only [serializeRecommendationRequest, covers]
    apply coversFields_of_lookup hnd hkeys
    intro k hk v hv
    simp only [List.mem_cons, List.mem_singleton, List.not_mem_nil, or_false] at hk
    rcases hk with rfl | rfl | rfl
    · rw [hl1] at hv
      obtain rfl := Option.some.inj hv
      exact ⟨.str s, by simp [lookupKey], by simp [covers, Json.beq]⟩
    · exact ⟨optJson Json.str u, by simp [lookupKey], hcu v hv⟩
    · rw [hl3] at hv
      obtain rfl := Option.some.inj hv
      exact ⟨.int b, by simp [lookupKey], by simp [covers, Json.beq]⟩

theorem roundTrip_RecommendRequest {j : Json}
    (h : wfCanonRecommendRequest j = true) :
    ∃ r, validateRecommendRequest j = .ok r ∧
      covers j (serializeRecommendRequest r) = true := by
  cases j <;> simp only [wfCanonRecommendRequest, Bool.and_eq_true] at h <;>
    try exact (Bool.false_ne_true h).elim
  case obj kvs =>
  obtain ⟨⟨⟨⟨⟨⟨hnd, hkeys⟩, h1⟩, h2⟩, h3⟩, h4⟩, h5⟩ := h
  obtain ⟨v1, hl1, hp1⟩ := wfReq_elim h1
  obtain ⟨s, rfl⟩ := wfStr_elim hp1
  obtain ⟨u, hu, hcu⟩ := optUUID_ok h2
  obtain ⟨v3, hl3, hp3⟩ := wfReq_elim h3
  obtain ⟨b, rfl⟩ := wfInt_elim hp3
  obtain ⟨js, hjs, hcjs⟩ := defIntList_ok h4
  obtain ⟨ts, hts, hcts⟩ := defIntList_ok h5
  refine ⟨⟨s, u, b, js, ts⟩, ?_, ?_⟩
  · simp [validateRecommendRequest, reqField, hl1, hl3, vStr, vInt,
      prefixErrs, hu, hjs, hts]
  · simp only [serializeRecommendRequest, covers]
    apply coversFields_of_lookup hnd hkeys
    intro k hk v hv
    simp only [List.mem_cons, List.mem_singleton, List.not_mem_nil, or_false] at hk
    rcases hk with rfl | rfl | rfl | rfl | rfl
    · rw [hl1] at hv
      obtain rfl := Option.some.inj hv
      exact ⟨.str s, by simp [lookupKey], by simp [covers, Json.beq]⟩
    · exact ⟨optJson Json.str u, by simp [lookupKey], hcu v hv⟩
    · rw [hl3] at hv
      obtain rfl := Option.some.inj hv
      exact ⟨.int b, by simp [lookupKey], by simp [covers, Json.beq]⟩
    · exact ⟨.arr (js.map Json.int), by simp [lookupKey], hcjs v hv⟩
    · exact ⟨.arr (ts.map Json.int), by simp [lookupKey], hcts v hv⟩

theorem vFloat_covers : ∀ x, wfFloat x = true →
    ∃ a, vFloat x = .ok a ∧ covers x (Json.float a) = true := by
  intro x hx
  obtain ⟨q, rfl⟩ := wfFloat_elim hx
  exact ⟨q, rfl, by simp [covers, Json.beq]⟩

theorem optField_ok {α : Type} {kvs : List (String × Json)} {name : String}
    {p : Json → VRes α} {P : Json → Bool} (g : α → Json)
    (hp : ∀ x, P x = true → ∃ a, p x = .ok a ∧ covers x (g a) = true)
    (h : wfOpt kvs name P = true) :
    ∃ u, optField kvs name p = .ok u ∧
      ∀ v, lookupKey kvs name = some v → covers v (optJson g u) = true := by
  rcases wfOpt_elim h with hnone | hnull | ⟨v, hl, hpv, hne⟩
  · exact ⟨none, by simp [optField, hnone], fun v hv => by rw [hnone] at hv; cases hv⟩
  · refine ⟨none, by simp [optField, hnull], fun v hv => ?_⟩
    rw [hnull] at hv
    obtain rfl := Option.some.inj hv
    simp [covers, optJson, Json.beq]
  · obtain ⟨a, ha, hca⟩ := hp v hpv
    refine ⟨some a, ?_, fun w hw => ?_⟩
    · cases v
      case null => exact absurd rfl hne
      all_goals simp_all [optField, prefixErrs, Except.map]
    · rw [hl] at hw
      obtain rfl := Option.some.inj hw
      simpa [optJson] using hca

theorem roundTrip_ScheduleItem {j : Json} (h : wfScheduleItem j = true) :
    ∃ r, validateScheduleItem j = .ok r ∧ covers j (serializeScheduleItem r) = true := by
  cases j <;> simp only [wfScheduleItem, Bool.and_eq_true] at h <;>
    try exact (Bool.false_ne_true h).elim
  case obj kvs =>
  obtain ⟨⟨⟨⟨⟨⟨hnd, hkeys⟩, h1⟩, h2⟩, h3⟩, h4⟩, h5⟩ := h
  obtain ⟨v1, hl1, hp1⟩ := wfReq_elim h1
  obtain ⟨d, rfl⟩ := wfInt_elim hp1
  obtain ⟨v2, hl2, hp2⟩ := wfReq_elim h2
  obtain ⟨s2, rfl⟩ := wfStr_elim hp2
  obtain ⟨v3, hl3, hp3⟩ := wfReq_elim h3
  obtain ⟨xs, rfl, hall⟩ := wfArrOf_elim hp3
  obtain ⟨ps, hps, hcps⟩ := vListElems_ok_covers Json.str vStr_covers xs 0 hall
  obtain ⟨dk, hdk, hcdk⟩ := optField_ok Json.float vFloat_covers h4
  obtain ⟨ck, hck, hcck⟩ := optField_ok Json.int vInt_covers h5
  refine ⟨⟨d, s2, ps, dk, ck⟩, ?_, ?_⟩
  · simp [validateScheduleItem, reqField, hl1, hl2, hl3, vInt, vStr, vList,
      prefixErrs, hps, hdk, hck]
  · simp only [serializeScheduleItem, covers]
    apply coversFields_of_lookup hnd hkeys
    intro k hk v hv
    simp only [List.mem_cons, List.mem_singleton, List.not_mem_nil, or_false] at hk
    rcases hk with rfl | rfl | rfl | rfl | rfl
    · rw [hl1] at hv
      obtain rfl := Option.some.inj hv
      exact ⟨.int d, by simp [lookupKey], by simp [covers, Json.beq]⟩
    · rw [hl2] at hv
      obtain rfl := Option.some.inj hv
      exact ⟨.str s2, by simp [lookupKey], by simp [covers, Json.beq]⟩
    · rw [hl3] at hv
      obtain rfl := Option.some.inj hv
      exact ⟨.arr (ps.map Json.str), by simp [lookupKey], by simp [covers, hcps]⟩
    · exact ⟨optJson Json.float dk, by simp [lookupKey], hcdk v hv⟩
    · exact ⟨optJson Json.int ck, by simp [lookupKey], hcck v hv⟩

theorem roundTrip_Itinerary {j : Json} (h : wfItinerary j = true) :
    ∃ r, validateItinerary j = .ok r ∧ covers j (serializeItinerary r) = true := by
  have h2 : wfScheduleItem j = true := h
  cases j <;> simp only [wfScheduleItem, Bool.and_eq_true] at h2 <;>
    try exact (Bool.false_ne_true h2).elim
  case obj kvs =>
  obtain ⟨⟨⟨⟨⟨⟨hnd, hkeys⟩, h1⟩, hb2⟩, h3⟩, h4⟩, h5⟩ := h2
  obtain ⟨v1, hl1, hp1⟩ := wfReq_elim h1
  obtain ⟨d, rfl⟩ := wfInt_elim hp1
  obtain ⟨v2, hl2, hp2⟩ := wfReq_elim hb2
  obtain ⟨s2, rfl⟩ := wfStr_elim hp2
  obtain ⟨v3, hl3, hp3⟩ := wfReq_elim h3
  obtain ⟨xs, rfl, hall⟩ := wfArrOf_elim hp3
  obtain ⟨ps, hps, hcps⟩ := vListElems_ok_covers Json.str vStr_covers xs 0 hall
  obtain ⟨dk, hdk, hcdk⟩ := optField_ok Json.float vFloat_covers h4
  obtain ⟨ck, hck, hcck⟩ := optField_ok Json.int vInt_covers h5
  refine ⟨⟨d, s2, ps, dk, ck⟩, ?_, ?_⟩
  · simp [validateItinerary, reqField, hl1, hl2, hl3, vInt, vStr, vList,
      prefixErrs, hps, hdk, hck]
  · simp only [serializeItinerary, covers]
    apply coversFields_of_lookup hnd hkeys
    intro k hk v hv
    simp only [List.mem_cons, List.mem_singleton, List.not_mem_nil, or_false] at hk
    rcases hk with rfl | rfl | rfl | rfl | rfl
    · rw [hl1] at hv
      obtain rfl := Option.some.inj hv
      exact ⟨.int d, by simp [lookupKey], by simp [covers, Json.beq]⟩
    · rw [hl2] at hv
      obtain rfl := Option.some.inj hv
      exact ⟨.str s2, by simp [lookupKey], by simp [covers, Json.beq]⟩
    · rw [hl3] at hv
      obtain rfl := Option.some.inj hv
      exact ⟨.arr (ps.map Json.str), by simp [lookupKey], by simp [covers, hcps]⟩
    · exact ⟨optJson Json.float dk, by simp [lookupKey], hcdk v hv⟩
    · exact ⟨optJson Json.int ck, by simp [lookupKey], hcck v hv⟩

theorem reqField_missing {kvs : List (String × Json)} {name : String}
    {α : Type} {p : Json → VRes α} (h : lookupKey kvs name = none) :
    reqField kvs name p = .error [⟨[name], "field required"⟩] := by
  simp [reqField, h]

theorem missing_SlotQuery {kvs : List (String × Json)}
    (h : lookupKey kvs "query" = none) :
    ∃ es, validateSlotQuery (.obj kvs) = .error es ∧
      ValErr.mk ["query"] "field required" ∈ es := by
  simp only [validateSlotQuery, reqField_missing h]
  exact ⟨_, rfl, by simp⟩

theorem missing_JobPreview {f : String} (hf : f ∈ ["job_id", "farm_name", "region", "tags"])
    {kvs : List (String × Json)} (h : lookupKey kvs f = none) :
    ∃ es, validateJobPreview (.obj kvs) = .error es ∧
      ValErr.mk [f] "field required" ∈ es := by
  simp only [List.mem_cons, List.mem_singleton, List.not_mem_nil, or_false] at hf
  rcases hf with rfl | rfl | rfl | rfl
  · cases h2 : reqField kvs "farm_name" vStr <;>
    cases h3 : reqField kvs "region" vStr <;>
    cases h4 : reqField kvs "tags" (vList vStr) <;>
    (simp only [validateJobPreview, reqField_missing h, h2, h3, h4, errsOf];
     exact ⟨_, rfl, by simp⟩)
  · cases h1 : reqField kvs "job_id" vInt <;>
    cases h3 : reqField kvs "region" vStr <;>
    cases h4 : reqField kvs "tags" (vList vStr) <;>
    (simp only [validateJobPreview, reqField_missing h, h1, h3, h4, errsOf];
     exact ⟨_, rfl, by simp⟩)
  · cases h1 : reqField kvs "job_id" vInt <;>
    cases h2 : reqField kvs "farm_name" vStr <;>
    cases h4 : reqField kvs "tags" (vList vStr) <;>
    (simp only [validateJobPreview, reqField_missing h, h1, h2, h4, errsOf];
     exact ⟨_, rfl, by simp⟩)
  · cases h1 : reqField kvs "job_id" vInt <;>
    cases h2 : reqField kvs "farm_name" vStr <;>
    cases h3 : reqField kvs "region" vStr <;>
    (simp only [validateJobPreview, reqField_missing h, h1, h2, h3, errsOf];
     exact ⟨_, rfl, by simp⟩)

theorem missing_TourPreview {f : String} (hf : f ∈ ["content_id", "title", "region", "overview"])
    {kvs : List (String × Json)} (h : lookupKey kvs f = none) :
    ∃ es, validateTourPreview (.obj kvs) = .error es ∧
      ValErr.mk [f] "field required" ∈ es := by
  simp only [List.mem_cons, List.mem_singleton, List.not_mem_nil, or_false] at hf
  rcases hf with rfl | rfl | rfl | rfl
  ·
    cases h1 : reqField kvs "title" vStr <;>
    cases h2 : reqField kvs "region" vStr <;>
    cases h3 : reqField kvs "overview" vStr <;>
    cases h4 : optField kvs "image_url" vStr <;>
    (simp only [validateTourPreview, reqField_missing h, h1, h2, h3, h4, errsOf];
     exact ⟨_, rfl, by simp⟩)
  ·
    cases h1 : reqField kvs "content_id" vInt <;>
    cases h2 : reqField kvs "region" vStr <;>
    cases h3 : reqField kvs "overview" vStr <;>
    cases h4 : optField kvs "image_url" vStr <;>
    (simp only [validateTourPreview, reqField_missing h, h1, h2, h3, h4, errsOf];
     exact ⟨_, rfl, by simp⟩)
  ·
    cases h1 : reqField kvs "content_id" vInt <;>
    cases h2 : reqField kvs "title" vStr <;>
    cases h3 : reqField kvs "overview" vStr <;>
    cases h4 : optField kvs "image_url" vStr <;>
    (simp only [validateTourPreview, reqField_missing h, h1, h2, h3, h4, errsOf];
     exact ⟨_, rfl, by simp⟩)
  ·
    cases h1 : reqField kvs "content_id" vInt <;>
    cases h2 : reqField kvs "title" vStr <;>
    cases h3 : reqField kvs "region" vStr <;>
    cases h4 : optField kvs "image_url" vStr <;>
    (simp only [validateTourPreview, reqField_missing h, h1, h2, h3, h4, errsOf];
     exact ⟨_, rfl, by simp⟩)

theorem missing_SlotsResponse {f : String} (hf : f ∈ ["slots", "jobs_preview", "tours_preview"])
    {kvs : List (String × Json)} (h : lookupKey kvs f = none) :
    ∃ es, validateSlotsResponse (.obj kvs) = .error es ∧
      ValErr.mk [f] "field required" ∈ es := by
  simp only [List.mem_cons, List.mem_singleton, List.not_mem_nil, or_false] at hf
  rcases hf with rfl | rfl | rfl
  ·
    cases h1 : reqField kvs "jobs_preview" (vList validateJobPreview) <;>
    cases h2 : reqField kvs "tours_preview" (vList validateTourPreview) <;>
    (simp only [validateSlotsResponse, reqField_missing h, h1, h2, errsOf];
     exact ⟨_, rfl, by simp⟩)
  ·
    cases h1 : reqField kvs "slots" vDict <;>
    cases h2 : reqField kvs "tours_preview" (vList validateTourPreview) <;>
    (simp only [validateSlotsResponse, reqField_missing h, h1, h2, errsOf];
     exact ⟨_, rfl, by simp⟩)
  ·
    cases h1 : reqField kvs "slots" vDict <;>
    cases h2 : reqField kvs "jobs_preview" (vList validateJobPreview) <;>
    (simp only [validateSlotsResponse, reqField_missing h, h1, h2, errsOf];
     exact ⟨_, rfl, by simp⟩)

theorem missing_RecommendationRequest {f : String} (hf : f ∈ ["query", "budget"])
    {kvs : List (String × Json)} (h : lookupKey kvs f = none) :
    ∃ es, validateRecommendationRequest (.obj kvs) = .error es ∧
      ValErr.mk [f] "field required" ∈ es := by
  simp only [List.mem_cons, List.mem_singleton, List.not_mem_nil, or_false] at hf
  rcases hf with rfl | rfl
  ·
    cases h1 : optField kvs "user_id" vUUID <;>
    cases h2 : reqField kvs "budget" vInt <;>
    (simp only [validateRecommendationRequest, reqField_missing h, h1, h2, errsOf];
     exact ⟨_, rfl, by simp⟩)
  ·
    cases h1 : reqField kvs "query" vStr <;>
    cases h2 : optField kvs "user_id" vUUID <;>
    (simp only [validateRecommendationRequest, reqField_missing h, h1, h2, errsOf];
     exact ⟨_, rfl, by simp⟩)

theorem missing_RecommendRequest {f : String} (hf : f ∈ ["query", "budget"])
    {kvs : List (String × Json)} (h : lookupKey kvs f = none) :
    ∃ es, validateRecommendRequest (.obj kvs) = .error es ∧
      ValErr.mk [f] "field required" ∈ es := by
  simp only [List.mem_cons, List.mem_singleton, List.not_mem_nil, or_false] at hf
  rcases hf with rfl | rfl
  ·
    cases h1 : optField kvs "user_id" vUUID <;>
    cases h2 : reqField kvs "budget" vInt <;>
    cases h3 : defField kvs "selected_jobs" [] (vList vInt) <;>
    cases h4 : defField kvs "selected_tours" [] (vList vInt) <;>
    (simp only [validateRecommendRequest, reqField_missing h, h1, h2, h3, h4, errsOf];
     exact ⟨_, rfl, by simp⟩)
  ·
    cases h1 : reqField kvs "query" vStr <;>
    cases h2 : optField kvs "user_id" vUUID <;>
    cases h3 : defField kvs "selected_jobs" [] (vList vInt) <;>
    cases h4 : defField kvs "selected_tours" [] (vList vInt) <;>
    (simp only [validateRecommendRequest, reqField_missing h, h1, h2, h3, h4, errsOf];
     exact ⟨_, rfl, by simp⟩)

theorem missing_ScheduleItem {f : String} (hf : f ∈ ["day", "date", "plan_items"])
    {kvs : List (String × Json)} (h : lookupKey kvs f = none) :
    ∃ es, validateScheduleItem (.obj kvs) = .error es ∧
      ValErr.mk [f] "field required" ∈ es := by
  simp only [List.mem_cons, List.mem_singleton, List.not_mem_nil, or_false] at hf
  rcases hf with rfl | rfl | rfl
  ·
    cases h1 : reqField kvs "date" vStr <;>
    cases h2 : reqField kvs "plan_items" (vList vStr) <;>
    cases h3 : optField kvs "total_distance_km" vFloat <;>
    cases h4 : optField kvs "total_cost_krw" vInt <;>
    (simp only [validateScheduleItem, reqField_missing h, h1, h2, h3, h4, errsOf];
     exact ⟨_, rfl, by simp⟩)
  ·
    cases h1 : reqField kvs "day" vInt <;>
    cases h2 : reqField kvs "plan_items" (vList vStr) <;>
    cases h3 : optField kvs "total_distance_km" vFloat <;>
    cases h4 : optField kvs "total_cost_krw" vInt <;>
    (simp only [validateScheduleItem, reqField_missing h, h1, h2, h3, h4, errsOf];
     exact ⟨_, rfl, by simp⟩)
  ·
    cases h1 : reqField kvs "day" vInt <;>
    cases h2 : reqField kvs "date" vStr <;>
    cases h3 : optField kvs "total_distance_km" vFloat <;>
    cases h4 : optField kvs "total_cost_krw" vInt <;>
    (simp only [validateScheduleItem, reqField_missing h, h1, h2, h3, h4, errsOf];
     exact ⟨_, rfl, by simp⟩)

theorem missing_Itinerary {f : String} (hf : f ∈ ["day", "date", "plan_items"])
    {kvs : List (String × Json)} (h : lookupKey kvs f = none) :
    ∃ es, validateItinerary (.obj kvs) = .error es ∧
      ValErr.mk [f] "field required" ∈ es := by
  simp only [List.mem_cons, List.mem_singleton, List.not_mem_nil, or_false] at hf
  rcases hf with rfl | rfl | rfl
  ·
    cases h1 : reqField kvs "date" vStr <;>
    cases h2 : reqField kvs "plan_items" (vList vStr) <;>
    cases h3 : optField kvs "total_distance_km" vFloat <;>
    cases h4 : optField kvs "total_cost_krw" vInt <;>
    (simp only [validateItinerary, reqField_missing h, h1, h2, h3, h4, errsOf];
     exact ⟨_, rfl, by simp⟩)
  ·
    cases h1 : reqField kvs "day" vInt <;>
    cases h2 : reqField kvs "plan_items" (vList vStr) <;>
    cases h3 : optField kvs "total_distance_km" vFloat <;>
    cases h4 : optField kvs "total_cost_krw" vInt <;>
    (simp only [validateItinerary, reqField_missing h, h1, h2, h3, h4, errsOf];
     exact ⟨_, rfl, by simp⟩)
  ·
    cases h1 : reqField kvs "day" vInt <;>
    cases h2 : reqField kvs "date" vStr <;>
    cases h3 : optField kvs "total_distance_km" vFloat <;>
    cases h4 : optField kvs "total_cost_krw" vInt <;>
    (simp only [validateItinerary, reqField_missing h, h1, h2, h3, h4, errsOf];
     exact ⟨_, rfl, by simp⟩)

theorem reqField_vInt_badstr {kvs : List (String × Json)} {name : String} {s : String}
    (hl : lookupKey kvs name = some (.str s)) (hp : pyIntOfString s = none) :
    reqField kvs name vInt = .error [⟨[name], "value is not a valid integer"⟩] := by
  simp [reqField, hl, vInt, hp, prefixErrs]

theorem optField_vUUID_badstr {kvs : List (String × Json)} {name : String} {s : String}
    (hl : lookupKey kvs name = some (.str s)) (hp : pyUUIDParse s = none) :
    optField kvs name vUUID = .error [⟨[name], "value is not a valid uuid"⟩] := by
  simp [optField, hl, vUUID, hp, prefixErrs, Except.map]

theorem badBudget_RecommendationRequest {kvs : List (String × Json)} {s : String}
    (hl : lookupKey kvs "budget" = some (.str s)) (hp : pyIntOfString s = none) :
    ∃ es, validateRecommendationRequest (.obj kvs) = .error es ∧
      ValErr.mk ["budget"] "value is not a valid integer" ∈ es := by
  cases h1 : reqField kvs "query" vStr <;>
  cases h2 : optField kvs "user_id" vUUID <;>
  (simp only [validateRecommendationRequest, h1, h2,
     reqField_vInt_badstr hl hp, errsOf];
   exact ⟨_, rfl, by simp⟩)

theorem badUUID_RecommendationRequest {kvs : List (String × Json)} {s : String}
    (hl : lookupKey kvs "user_id" = some (.str s)) (hp : pyUUIDParse s = none) :
    ∃ es, validateRecommendationRequest (.obj kvs) = .error es ∧
      ValErr.mk ["user_id"] "value is not a valid uuid" ∈ es := by
  cases h1 : reqField kvs "query" vStr <;>
  cases h3 : reqField kvs "budget" vInt <;>
  (simp only [validateRecommendationRequest, h1, h3,
     optField_vUUID_badstr hl hp, errsOf];
   exact ⟨_, rfl, by simp⟩)

/-- Repackage a validated `ScheduleItem` as an `Itinerary` (the subclass
adds nothing). -/
def itineraryOfSchedule (r : ScheduleItem) : Itinerary :=
  ⟨r.day, r.date, r.plan_items, r.total_distance_km, r.total_cost_krw⟩

theorem validateItinerary_eq_map (j : Json) :
    validateItinerary j = (validateScheduleItem j).map itineraryOfSchedule := by
  cases j <;> try simp [validateItinerary, validateScheduleItem, Except.map]
  case obj kvs =>
  cases h1 : reqField kvs "day" vInt <;>
  cases h2 : reqField kvs "date" vStr <;>
  cases h3 : reqField kvs "plan_items" (vList vStr) <;>
  cases h4 : optField kvs "total_distance_km" vFloat <;>
  cases h5 : optField kvs "total_cost_krw" vInt <;>
  simp only [validateItinerary, validateScheduleItem, h1, h2, h3, h4, h5,
    errsOf, Except.map, itineraryOfSchedule]

/-! ## Claim theorems -/

/-- C1 (amended): for each of the eight model classes, validate-and-construct
succeeds on every JSON input matching the class's declared shape, and
serializing the constructed record reproduces every field value present in
the input — with the one qualification the counterexample forces: a
`user_id` value (`RecommendationRequest`, `RecommendRequest`) must be
written in canonical UUID form (lowercase, hyphenated) for its value to be
reproduced verbatim; for the six classes without a UUID field the claim
holds exactly as stated. -/
theorem C1_wellformed_roundtrip :
    (∀ j, wfSlotQuery j = true →
      ∃ r, validateSlotQuery j = .ok r ∧
        covers j (serializeSlotQuery r) = true) ∧
    (∀ j, wfJobPreview j = true →
      ∃ r, validateJobPreview j = .ok r ∧
        covers j (serializeJobPreview r) = true) ∧
    (∀ j, wfTourPreview j = true →
      ∃ r, validateTourPreview j = .ok r ∧
        covers j (serializeTourPreview r) = true) ∧
    (∀ j, wfSlotsResponse j = true →
      ∃ r, validateSlotsResponse j = .ok r ∧
        covers j (serializeSlotsResponse r) = true) ∧
    (∀ j, wfCanonRecommendationRequest j = true →
      ∃ r, validateRecommendationRequest j = .ok r ∧
        covers j (serializeRecommendationRequest r) = true) ∧
    (∀ j, wfCanonRecommendRequest j = true →
      ∃ r, validateRecommendRequest j = .ok r ∧
        covers j (serializeRecommendRequest r) = true) ∧
    (∀ j, wfScheduleItem j = true →
      ∃ r, validateScheduleItem j = .ok r ∧
        covers j (serializeScheduleItem r) = true) ∧
    (∀ j, wfItinerary j = true →
      ∃ r, validateItinerary j = .ok r ∧
        covers j (serializeItinerary r) = true) :=
  ⟨fun _ h => roundTrip_SlotQuery h, fun _ h => roundTrip_JobPreview h,
   fun _ h => roundTrip_TourPreview h, fun _ h => roundTrip_SlotsResponse h,
   fun _ h => roundTrip_RecommendationRequest h,
   fun _ h => roundTrip_RecommendRequest h,
   fun _ h => roundTrip_ScheduleItem h, fun _ h => roundTrip_Itinerary h⟩

/-- C1 counterexample: this input matches `RecommendationRequest`'s declared
shape — `query` a string, `budget` an integer, `user_id` a string that is a
valid UUID (uppercase hex digits) — and validate-and-construct succeeds,
but the `UUID` object prints in canonical lowercase form, so serialization
does not reproduce the input's `user_id` field value exactly. -/
theorem C1_roundtrip_counterexample :
    wfRecommendationRequest (Json.obj [("query", Json.str "x"),
      ("user_id", Json.str "12345678-1234-5678-1234-56781234ABCD"),
      ("budget", Json.int 5)]) = true ∧
    validateRecommendationRequest (Json.obj [("query", Json.str "x"),
      ("user_id", Json.str "12345678-1234-5678-1234-56781234ABCD"),
      ("budget", Json.int 5)]) =
      .ok ⟨"x", some "12345678-1234-5678-1234-56781234abcd", 5⟩ ∧
    covers (Json.obj [("query", Json.str "x"),
      ("user_id", Json.str "12345678-1234-5678-1234-56781234ABCD"),
      ("budget", Json.int 5)])
      (serializeRecommendationRequest
        ⟨"x", some "12345678-1234-5678-1234-56781234abcd", 5⟩) = false :=
  ⟨rfl, rfl, rfl⟩

/-- C1 witness: the round-trip theorem applied at a concrete `SlotQuery`
input and a concrete `RecommendationRequest` input with a canonical
`user_id`. -/
theorem C1_wellformed_roundtrip_witness :
    (∃ r, validateSlotQuery (Json.obj [("query",
        Json.str "9월 첫째 주 고창에서 조개잡이")]) = .ok r ∧
      covers (Json.obj [("query", Json.str "9월 첫째 주 고창에서 조개잡이")])
        (serializeSlotQuery r) = true) ∧
    (∃ r, validateRecommendationRequest (Json.obj [("query", Json.str "trip"),
        ("user_id", Json.str "12345678-1234-5678-1234-567812345678"),
        ("budget", Json.int 100000)]) = .ok r ∧
      covers (Json.obj [("query", Json.str "trip"),
        ("user_id", Json.str "12345678-1234-5678-1234-567812345678"),
        ("budget", Json.int 100000)])
        (serializeRecommendationRequest r) = true) :=
  ⟨C1_wellformed_roundtrip.1 _ rfl, C1_wellformed_roundtrip.2.2.2.2.1 _ rfl⟩

/-- C2: for every model class and every one of its required fields, a JSON
object input that omits that field fails validation with an error locating
that field and reading `field required`; construction never succeeds (the
two bare-`Optional` fields of `ScheduleItem`/`Itinerary`, `image_url`, and
the two `default_factory` list fields are not required, so they are not
listed). -/
theorem C2_missing_required_field :
    (∀ kvs, lookupKey kvs "query" = none →
      ∃ es, validateSlotQuery (.obj kvs) = .error es ∧
        ValErr.mk ["query"] "field required" ∈ es) ∧
    (∀ f, f ∈ ["job_id", "farm_name", "region", "tags"] →
      ∀ kvs, lookupKey kvs f = none →
        ∃ es, validateJobPreview (.obj kvs) = .error es ∧
          ValErr.mk [f] "field required" ∈ es) ∧
    (∀ f, f ∈ ["content_id", "title", "region", "overview"] →
      ∀ kvs, lookupKey kvs f = none →
        ∃ es, validateTourPreview (.obj kvs) = .error es ∧
          ValErr.mk [f] "field required" ∈ es) ∧
    (∀ f, f ∈ ["slots", "jobs_preview", "tours_preview"] →
      ∀ kvs, lookupKey kvs f = none →
        ∃ es, validateSlotsResponse (.obj kvs) = .error es ∧
          ValErr.mk [f] "field required" ∈ es) ∧
    (∀ f, f ∈ ["query", "budget"] →
      ∀ kvs, lookupKey kvs f = none →
        ∃ es, validateRecommendationRequest (.obj kvs) = .error es ∧
          ValErr.mk [f] "field required" ∈ es) ∧
    (∀ f, f ∈ ["query", "budget"] →
      ∀ kvs, lookupKey kvs f = none →
        ∃ es, validateRecommendRequest (.obj kvs) = .error es ∧
          ValErr.mk [f] "field required" ∈ es) ∧
    (∀ f, f ∈ ["day", "date", "plan_items"] →
      ∀ kvs, lookupKey kvs f = none →
        ∃ es, validateScheduleItem (.obj kvs) = .error es ∧
          ValErr.mk [f] "field required" ∈ es) ∧
    (∀ f, f ∈ ["day", "date", "plan_items"] →
      ∀ kvs, lookupKey kvs f = none →
        ∃ es, validateItinerary (.obj kvs) = .error es ∧
          ValErr.mk [f] "field required" ∈ es) :=
  ⟨fun _ h => missing_SlotQuery h,
   fun _ hf _ h => missing_JobPreview hf h,
   fun _ hf _ h => missing_TourPreview hf h,
   fun _ hf _ h => missing_SlotsResponse hf h,
   fun _ hf _ h => missing_RecommendationRequest hf h,
   fun _ hf _ h => missing_RecommendRequest hf h,
   fun _ hf _ h => missing_ScheduleItem hf h,
   fun _ hf _ h => missing_Itinerary hf h⟩

/-- C2 witness: the missing-field theorem applied to the empty object for
`SlotQuery` (missing `query`) and to `JobPreview` missing `job_id`. -/
theorem C2_missing_required_field_witness :
    (∃ es, validateSlotQuery (.obj []) = .error es ∧
      ValErr.mk ["query"] "field required" ∈ es) ∧
    (∃ es, validateJobPreview (.obj [("farm_name", Json.str "f"),
        ("region", Json.str "r"), ("tags", Json.arr [])]) = .error es ∧
      ValErr.mk ["job_id"] "field required" ∈ es) :=
  ⟨C2_missing_required_field.1 [] rfl,
   C2_missing_required_field.2.1 "job_id" (by simp)
     [("farm_name", Json.str "f"), ("region", Json.str "r"),
      ("tags", Json.arr [])] rfl⟩

/-- C3 (amended): a value that Pydantic v1 cannot coerce to the declared
type fails construction with an error naming the field: any ASCII string
`budget` that Python `int()` rejects (such as scenario D's
`"not-a-number"`), and any ASCII string `user_id` that `uuid.UUID`
rejects. Two cut-backs from the claim as written: the blanket "every value
not of the declared type fails" is reduced to coercion failures (the
counterexample shows Pydantic v1 accepts some mistyped values by
coercion), and the two universals are restricted to ASCII values, on which
the embedded `int()` and `uuid.UUID` are exact — Python also accepts some
non-ASCII digit and whitespace forms that the embedding does not track. -/
theorem C3_uncoercible_value_fails :
    (∀ kvs s, lookupKey kvs "budget" = some (.str s) → asciiOnly s = true →
      pyIntOfString s = none →
      ∃ es, validateRecommendationRequest (.obj kvs) = .error es ∧
        ValErr.mk ["budget"] "value is not a valid integer" ∈ es) ∧
    (∀ kvs s, lookupKey kvs "user_id" = some (.str s) → asciiOnly s = true →
      pyUUIDParse s = none →
      ∃ es, validateRecommendationRequest (.obj kvs) = .error es ∧
        ValErr.mk ["user_id"] "value is not a valid uuid" ∈ es) ∧
    validateRecommendationRequest (Json.obj [("budget", Json.str "not-a-number"),
      ("query", Json.str "x")]) =
      .error [⟨["budget"], "value is not a valid integer"⟩] :=
  ⟨fun _ _ hl _ hp => badBudget_RecommendationRequest hl hp,
   fun _ _ hl _ hp => badUUID_RecommendationRequest hl hp,
   rfl⟩

/-- C3 counterexample: `{"query": "x", "budget": "123"}` gives `budget` a
JSON string, not the declared integer type, yet validate-and-construct
succeeds by coercion — so not every type mismatch on a declared field
fails, contrary to the claim's universal statement. -/
theorem C3_type_mismatch_counterexample :
    validateRecommendationRequest (Json.obj [("query", Json.str "x"),
      ("budget", Json.str "123")]) = .ok ⟨"x", none, 123⟩ :=
  rfl

/-- C3 witness: the amended theorem applied at scenario D's input and at an
unparseable `user_id`. -/
theorem C3_uncoercible_value_fails_witness :
    (∃ es, validateRecommendationRequest (Json.obj [("budget",
        Json.str "not-a-number"), ("query", Json.str "x")]) = .error es ∧
      ValErr.mk ["budget"] "value is not a valid integer" ∈ es) ∧
    (∃ es, validateRecommendationRequest (Json.obj [("query", Json.str "x"),
        ("user_id", Json.str "not-a-uuid"), ("budget", Json.int 1)]) = .error es ∧
      ValErr.mk ["user_id"] "value is not a valid uuid" ∈ es) :=
  ⟨C3_uncoercible_value_fails.1 [("budget", Json.str "not-a-number"),
      ("query", Json.str "x")] "not-a-number" rfl rfl rfl,
   C3_uncoercible_value_fails.2.1 [("query", Json.str "x"),
      ("user_id", Json.str "not-a-uuid"), ("budget", Json.int 1)]
      "not-a-uuid" rfl rfl rfl⟩

/-- C4 (amended): `query` is a required field of `SlotQuery` — constructing
from an object without the key fails with `field required` — and every
string value, the empty string included, is accepted and stored unchanged
(the source declares `query: str = Field(...)` with no `min_length` or
other constraint, so non-emptiness is not enforced). -/
theorem C4_query_required_any_string :
    (∀ s, validateSlotQuery (Json.obj [("query", Json.str s)]) = .ok ⟨s⟩) ∧
    (∀ kvs s r, lookupKey kvs "query" = some (.str s) →
      validateSlotQuery (.obj kvs) = .ok r → r.query = s) ∧
    (∀ kvs, lookupKey kvs "query" = none →
      ∃ es, validateSlotQuery (.obj kvs) = .error es ∧
        ValErr.mk ["query"] "field required" ∈ es) := by
  refine ⟨?_, ?_, fun _ h => missing_SlotQuery h⟩
  · intro s
    simp [validateSlotQuery, reqField, lookupKey, vStr, prefixErrs]
  · intro kvs s r hl hok
    simp only [validateSlotQuery, reqField, hl, vStr, prefixErrs] at hok
    obtain rfl := (Except.ok.inj hok).symm
    rfl

/-- C4 counterexample: constructing `SlotQuery` from `{"query": ""}` (the
empty string) succeeds — the claim's non-emptiness requirement is not in
the code. -/
theorem C4_empty_query_counterexample :
    validateSlotQuery (Json.obj [("query", Json.str "")]) =
      .ok ⟨""⟩ :=
  rfl

/-- C4 witness: the amended theorem applied at a non-empty string, at an
object carrying a query value, and at the empty object. -/
theorem C4_query_required_any_string_witness :
    validateSlotQuery (Json.obj [("query", Json.str "hello")]) = .ok ⟨"hello"⟩ ∧
    (∃ es, validateSlotQuery (.obj []) = .error es ∧
      ValErr.mk ["query"] "field required" ∈ es) :=
  ⟨C4_query_required_any_string.1 "hello",
   C4_query_required_any_string.2.2 [] rfl⟩

/-- C5: a `RecommendRequest` constructed from JSON without the
`selected_jobs` and `selected_tours` keys always carries those fields as
the empty list — the `default_factory=list` defaults, never an absent
value. -/
theorem C5_selected_lists_default_empty :
    ∀ kvs r, lookupKey kvs "selected_jobs" = none →
      lookupKey kvs "selected_tours" = none →
      validateRecommendRequest (.obj kvs) = .ok r →
      r.selected_jobs = [] ∧ r.selected_tours = [] := by
  intro kvs r h4 h5 hok
  have hf4 : defField kvs "selected_jobs" [] (vList vInt) = .ok [] := by
    simp [defField, h4]
  have hf5 : defField kvs "selected_tours" [] (vList vInt) = .ok [] := by
    simp [defField, h5]
  cases h1 : reqField kvs "query" vStr <;>
  cases h2 : optField kvs "user_id" vUUID <;>
  cases h3 : reqField kvs "budget" vInt <;>
  simp only [validateRecommendRequest, h1, h2, h3, hf4, hf5, errsOf] at hok <;>
  first
  | (obtain rfl := (Except.ok.inj hok).symm; exact ⟨rfl, rfl⟩)
  | cases hok

/-- C5 witness: the default-lists theorem applied to scenario B's input
`{"query": "trip", "budget": 100000}`. -/
theorem C5_selected_lists_default_empty_witness :
    (⟨"trip", none, 100000, [], []⟩ : RecommendRequest).selected_jobs = [] ∧
    (⟨"trip", none, 100000, [], []⟩ : RecommendRequest).selected_tours = [] :=
  C5_selected_lists_default_empty
    [("query", Json.str "trip"), ("budget", Json.int 100000)]
    ⟨"trip", none, 100000, [], []⟩ rfl rfl rfl

/-- C6: a `TourPreview` constructed without the `image_url` key has
`image_url` absent (`None`), and that state is distinct from a present
empty string: the two constructions below both succeed and produce
different records. -/
theorem C6_image_url_absent_vs_empty :
    (∀ kvs r, lookupKey kvs "image_url" = none →
      validateTourPreview (.obj kvs) = .ok r → r.image_url = none) ∧
    validateTourPreview (.obj [("content_id", Json.int 1), ("title", Json.str "t"),
      ("region", Json.str "r"), ("overview", Json.str "o")]) =
      .ok ⟨1, "t", "r", "o", none⟩ ∧
    validateTourPreview (.obj [("content_id", Json.int 1), ("title", Json.str "t"),
      ("region", Json.str "r"), ("overview", Json.str "o"),
      ("image_url", Json.str "")]) = .ok ⟨1, "t", "r", "o", some ""⟩ ∧
    (⟨1, "t", "r", "o", some ""⟩ : TourPreview) ≠ ⟨1, "t", "r", "o", none⟩ := by
  refine ⟨?_, rfl, rfl, by simp⟩
  intro kvs r h5 hok
  have hf5 : optField kvs "image_url" vStr = .ok none := by simp [optField, h5]
  cases h1 : reqField kvs "content_id" vInt <;>
  cases h2 : reqField kvs "title" vStr <;>
  cases h3 : reqField kvs "region" vStr <;>
  cases h4 : reqField kvs "overview" vStr <;>
  simp only [validateTourPreview, h1, h2, h3, h4, hf5, errsOf] at hok <;>
  first
  | (obtain rfl := (Except.ok.inj hok).symm; rfl)
  | cases hok

/-- C6 witness: the absence theorem applied to a concrete `TourPreview`
input with no `image_url` key. -/
theorem C6_image_url_absent_vs_empty_witness :
    (⟨2, "t2", "r2", "o2", none⟩ : TourPreview).image_url = none :=
  C6_image_url_absent_vs_empty.1
    [("content_id", Json.int 2), ("title", Json.str "t2"),
     ("region", Json.str "r2"), ("overview", Json.str "o2")]
    ⟨2, "t2", "r2", "o2", none⟩ rfl rfl

/-- C7: scenario C — a `ScheduleItem` built from explicit `null`s for
`total_distance_km` and `total_cost_krw` succeeds with both optional
numeric fields absent, and omitting those two keys entirely also succeeds
with both fields absent (Pydantic v1 auto-defaults bare `Optional` fields
to `None`). -/
theorem C7_schedule_nullable_optional :
    validateScheduleItem (Json.obj [("day", Json.int 1),
      ("date", Json.str "2024-09-01"),
      ("plan_items", Json.arr [Json.str "clam digging"]),
      ("total_distance_km", Json.null), ("total_cost_krw", Json.null)]) =
      .ok ⟨1, "2024-09-01", ["clam digging"], none, none⟩ ∧
    validateScheduleItem (Json.obj [("day", Json.int 1),
      ("date", Json.str "2024-09-01"),
      ("plan_items", Json.arr [Json.str "clam digging"])]) =
      .ok ⟨1, "2024-09-01", ["clam digging"], none, none⟩ :=
  ⟨rfl, rfl⟩

/-- C8: `Itinerary` is structurally identical to `ScheduleItem`: on every
JSON input the two validators succeed together, and the records they
construct serialize to the same JSON. -/
theorem C8_itinerary_equals_schedule :
    (∀ j, (∃ r, validateItinerary j = .ok r) ↔
      (∃ r, validateScheduleItem j = .ok r)) ∧
    (∀ j ri rs, validateItinerary j = .ok ri →
      validateScheduleItem j = .ok rs →
      serializeItinerary ri = serializeScheduleItem rs) := by
  constructor
  · intro j
    rw [validateItinerary_eq_map j]
    constructor
    · rintro ⟨r, hr⟩
      cases hs : validateScheduleItem j with
      | ok r2 => exact ⟨r2, rfl⟩
      | error es =>
        rw [hs] at hr
        simp [Except.map] at hr
    · rintro ⟨r, hr⟩
      exact ⟨itineraryOfSchedule r, by rw [hr]; rfl⟩
  · intro j ri rs hi hs
    rw [validateItinerary_eq_map j, hs] at hi
    simp only [Except.map] at hi
    obtain rfl := (Except.ok.inj hi).symm
    rfl

/-- C8 witness: the serialization-equality half applied at scenario C's
input, where both validators succeed. -/
theorem C8_itinerary_equals_schedule_witness :
    serializeItinerary ⟨1, "2024-09-01", ["clam digging"], none, none⟩ =
      serializeScheduleItem ⟨1, "2024-09-01", ["clam digging"], none, none⟩ :=
  C8_itinerary_equals_schedule.2
    (Json.obj [("day", Json.int 1), ("date", Json.str "2024-09-01"),
      ("plan_items", Json.arr [Json.str "clam digging"]),
      ("total_distance_km", Json.null), ("total_cost_krw", Json.null)])
    ⟨1, "2024-09-01", ["clam digging"], none, none⟩
    ⟨1, "2024-09-01", ["clam digging"], none, none⟩ rfl rfl

/-- C9: the two extension relationships preserve the base class's field
order and types verbatim: every serialized `RecommendRequest` lists exactly
the keys `query, user_id, budget, selected_jobs, selected_tours` in that
order, its first three bindings being exactly the serialization of the
inherited `RecommendationRequest` fields; every serialized `Itinerary`
lists `ScheduleItem`'s keys in `ScheduleItem`'s order and coincides with
the `ScheduleItem` serialization of the same field values. -/
theorem C9_extension_preserves_base_fields :
    (∀ r : RecommendRequest,
      objKeys (serializeRecommendRequest r) =
        ["query", "user_id", "budget", "selected_jobs", "selected_tours"] ∧
      (objFields (serializeRecommendRequest r)).take 3 =
        objFields (serializeRecommendationRequest ⟨r.query, r.user_id, r.budget⟩)) ∧
    (∀ r : RecommendationRequest,
      objKeys (serializeRecommendationRequest r) = ["query", "user_id", "budget"]) ∧
    (∀ r : Itinerary,
      objKeys (serializeItinerary r) =
        ["day", "date", "plan_items", "total_distance_km", "total_cost_krw"] ∧
      serializeItinerary r = serializeScheduleItem
        ⟨r.day, r.date, r.plan_items, r.total_distance_km, r.total_cost_krw⟩) ∧
    (∀ r : ScheduleItem,
      objKeys (serializeScheduleItem r) =
        ["day", "date", "plan_items", "total_distance_km", "total_cost_krw"]) :=
  ⟨fun _ => ⟨rfl, rfl⟩, fun _ => rfl, fun _ => ⟨rfl, rfl⟩, fun _ => rfl⟩

/-- C10: Pydantic v1 coerces on `budget`: the JSON string `"100000"` is
accepted and stored as the integer 100000, and the boolean `true` is
accepted and stored as 1 — not every type mismatch on `budget` fails
construction. -/
theorem C10_budget_coerced :
    validateRecommendationRequest (Json.obj [("query", Json.str "x"),
      ("budget", Json.str "100000")]) = .ok ⟨"x", none, 100000⟩ ∧
    validateRecommendationRequest (Json.obj [("query", Json.str "x"),
      ("budget", Json.bool true)]) = .ok ⟨"x", none, 1⟩ :=
  ⟨rfl, rfl⟩
